import Mathlib

/-!
Verification of the Pulse network-monitor core (scan task lifecycle and
device reconciliation pipeline) against its natural-language specification.

The Python source is shallowly embedded: dictionaries become structures whose
fields are `Option`-typed slots (a Python dict key may be absent, present with
value `None`, or present with a value), SQLite tables become lists of row
structures, and the fallible external pieces (the nmap subprocess, the XML
lexer) become explicit outcome parameters.
-/

namespace Pulse

/-- A slot of a Python dict: `none` = key absent, `some none` = key present
with value `None`, `some (some v)` = key present with value `v`.  This mirrors
the distinction `dict.get(k)` vs `dict.get(k, default)` make in the source. -/
abbrev PyField (α : Type) := Option (Option α)

/-- `d.get(k)` with the default `None`: an absent key and a key mapped to
`None` both read back as `None`. -/
def pyGet {α : Type} (f : PyField α) : Option α :=
  f.getD none

/-- Python string formatting of a possibly-`None` value (`f"{x}"` prints
`None` for `None`). -/
def pyStr (o : Option String) : String :=
  o.getD "None"

/-- Python `a or b` on two possibly-`None` strings (empty strings are falsy). -/
def pyOr (a b : Option String) : Option String :=
  match a with
  | some s => if s = "" then b else some s
  | none => b

/-- Truthiness of a possibly-`None` string (`if x:`). -/
def strTruthy (o : Option String) : Bool :=
  match o with
  | some s => s ≠ ""
  | none => false

/-- Character-list version of Python prefix comparison. -/
def chListPre : List Char → List Char → Bool
  | [], _ => true
  | _ :: _, [] => false
  | a :: as, b :: bs => a = b && chListPre as bs

/-- Character-list version of Python substring test (the `in` operator on
strings: contiguous substring). -/
def chListSub (needle : List Char) : List Char → Bool
  | [] => chListPre needle []
  | b :: rest => chListPre needle (b :: rest) || chListSub needle rest

/-- Python `needle in hay` on strings. -/
def strIn (needle hay : String) : Bool :=
  chListSub needle.data hay.data

/-- Python `str.lower()`, written over the character list (`Char.toLower`
agrees with `str.lower` on the ASCII text involved here). -/
def strLower (s : String) : String :=
  String.mk (s.data.map Char.toLower)

/-- Python `max(xs, key=f)`: the first element attaining the maximal key, as
CPython replaces the running maximum only on a strictly greater key. -/
def pyMaxBy {α β : Type} [LinearOrder β] (f : α → β) : List α → Option α
  | [] => none
  | x :: xs => some (xs.foldl (fun acc y => if f acc < f y then y else acc) x)

/-! ## ResultNormalizer data model (src/pulse/parser/nmap_parser.py) -/

/-- The `service` sub-dict of a parsed port (`NmapParser._parse_ports`): every
attribute is read with a `''` default, so the fields are plain strings. -/
structure ServiceInfo where
  name : String := ""
  product : String := ""
  version : String := ""
  extrainfo : String := ""
  deriving Repr, DecidableEq, Inhabited

/-- A parsed port dict (`NmapParser._parse_ports`).  The source carries the
`portid` attribute as a string; `port = none` models an empty `portid` string
(falsy in the classifier, and `int('')` raises in the worker), `port = some n`
models the decimal numeral of `n`.  `state` is `none` when the `state` element
was absent (key not set). -/
structure PortData where
  port : Option Nat := none
  protocol : String := "tcp"
  state : Option String := none
  service : Option ServiceInfo := none
  deriving Repr, DecidableEq, Inhabited

/-- An `osclass` dict of an OS match (`NmapParser._parse_os`). -/
structure OsClass where
  osfamily : String := ""
  osgen : String := ""
  deriving Repr, DecidableEq, Inhabited

/-- An `osmatch` dict (`NmapParser._parse_os`).  The source stores the
`accuracy` attribute as its decimal string and every consumer immediately
converts it with `int(...)`; the embedding carries the converted integer. -/
structure OsMatch where
  name : String := ""
  accuracy : Int := 0
  classes : List OsClass := []
  deriving Repr, DecidableEq, Inhabited

/-- A parsed host dict (`NmapParser._parse_host`).  List-valued keys that the
source only sets when non-empty (`hostnames`, `ports`, `os`) are collapsed to
lists with `[]` for "absent", since every consumer reads them with an
empty-collection default and `_parse_os` returns `None` exactly when the match
list is empty.  `uptime` is the `(seconds, lastboot)` attribute pair. -/
structure HostData where
  status : String := "unknown"
  ip_address : Option String := none
  ipv6_address : Option String := none
  mac_address : Option String := none
  vendor : Option String := none
  hostnames : List String := []
  os : List OsMatch := []
  ports : List PortData := []
  uptime : Option (String × String) := none
  distance : Option String := none
  deriving Repr, DecidableEq, Inhabited

/-- Best OS match (`NmapParser._parse_os`, line 222):
`max(matches, key=lambda x: int(x.get('accuracy', 0)))` — the first match with
the numerically highest accuracy. -/
def bestOsMatch (ms : List OsMatch) : Option OsMatch :=
  pyMaxBy (fun m => m.accuracy) ms

/-- The `metadata` dict that `extract_devices` builds for a device.  Keys are
set only under the truthiness guards of the source, hence `Option`s. -/
structure DevMeta where
  ports : Option (List PortData) := none
  open_ports_count : Option Nat := none
  all_hostnames : Option (List String) := none
  uptime : Option (String × String) := none
  distance : Option String := none
  deriving Repr, DecidableEq, Inhabited

/-- The `device_data` dict passed to `Database.add_device` (and produced by
`extract_devices`).  Each field is a Python dict slot, see `PyField`. -/
structure DeviceData where
  ip_address : PyField String := none
  mac_address : PyField String := none
  hostname : PyField String := none
  vendor : PyField String := none
  oui : PyField String := none
  device_type : PyField String := none
  os_name : PyField String := none
  os_family : PyField String := none
  os_version : PyField String := none
  os_accuracy : PyField Int := none
  status : PyField String := none
  metadata : PyField DevMeta := none
  deriving Repr, DecidableEq, Inhabited

/-- OUI derivation of `extract_devices` (nmap_parser.py line 372):
`mac_address[:8].replace(':', '').upper()` — first eight characters, colons
removed, uppercased (`Char.toUpper` agrees with `str.upper` on the hex digits
and separators a MAC is made of). -/
def ouiOfMac (mac : String) : String :=
  String.mk (((mac.data.take 8).filter (fun c => c ≠ ':')).map Char.toUpper)

/-- Number of ports with `state == 'open'` (`extract_devices`). -/
def openPortsCount (ports : List PortData) : Nat :=
  (ports.filter (fun p => p.state = some "open")).length

/-- The `metadata` dict built by `extract_devices` for one host (lines
389-404): each key only under the source's truthiness guard. -/
def metaOfHost (h : HostData) : DevMeta :=
  { ports := if h.ports ≠ [] then some h.ports else none
    open_ports_count := if h.ports ≠ [] then some (openPortsCount h.ports) else none
    all_hostnames := if h.hostnames ≠ [] then some h.hostnames else none
    uptime := h.uptime
    distance := match h.distance with
      | some s => if s = "" then none else some s
      | none => none }

/-- The device dict built by one loop iteration of
`NmapParser.extract_devices` for an `up` host (lines 361-406), written
field-wise: a key is set exactly when the source's guard for it holds
(`oui` iff the MAC is truthy; the OS keys iff `_parse_os` produced a best
match, the family/version pair additionally iff it has classes). -/
def deviceOfHost (h : HostData) : DeviceData :=
  { ip_address := some h.ip_address
    mac_address := some h.mac_address
    hostname := some h.hostnames.head?
    vendor := some h.vendor
    status := some (some h.status)
    oui := match h.mac_address with
      | some s => if s ≠ "" then some (some (ouiOfMac s)) else none
      | none => none
    os_name := (bestOsMatch h.os).map (fun bm => some bm.name)
    os_accuracy := (bestOsMatch h.os).map (fun bm => some bm.accuracy)
    os_family := (bestOsMatch h.os).bind
      (fun bm => bm.classes.head?.map (fun c => some c.osfamily))
    os_version := (bestOsMatch h.os).bind
      (fun bm => bm.classes.head?.map (fun c => some c.osgen))
    metadata := some (some (metaOfHost h)) }

/-- `NmapParser.extract_devices` over the host list (lines 355-408): one
device per host whose status is `up`, in host order. -/
def extract_devices (hosts : List HostData) : List DeviceData :=
  hosts.foldl (fun acc h => if h.status = "up" then acc ++ [deviceOfHost h] else acc) []

/-- The dict `NmapParser.parse_xml` returns on success (lines 50-57). -/
structure ParsedData where
  hosts : List HostData := []
  hosts_up : Nat := 0
  hosts_down : Nat := 0
  hosts_total : Nat := 0
  deriving Repr, DecidableEq, Inhabited

/-- An XML payload string, embedded by its parse status: `emptyStr` is the
empty (falsy) string, `malformedStr msg` a non-empty string on which
`ET.fromstring` raises a `ParseError` with message `msg`, and `docStr p` a
well-formed document whose element tree the copying in `_parse_scan_info`,
`_parse_host` and `_parse_run_stats` turns into `p`. -/
inductive XmlStr where
  | emptyStr : XmlStr
  | malformedStr (msg : String) : XmlStr
  | docStr (p : ParsedData) : XmlStr
  deriving Repr, DecidableEq, Inhabited

/-- Result of `NmapParser.parse_xml`: either the parsed dict or a dict with a
single `error` key. -/
inductive ParseResult where
  | err (msg : String) : ParseResult
  | ok (p : ParsedData) : ParseResult
  deriving Repr, DecidableEq, Inhabited

/-- `NmapParser.parse_xml` (lines 21-66): the empty-input guard and the
`ParseError` handler each return an explicit error dict; only a fully parsed
document yields hosts. -/
def parse_xml (x : XmlStr) : ParseResult :=
  match x with
  | .emptyStr => .err "Empty XML output"
  | .malformedStr msg => .err ("XML parse error: " ++ msg)
  | .docStr p => .ok p

/-- `parsed_data.get('hosts', [])` as used by `extract_devices`: an error dict
has no `hosts` key. -/
def hostsOfResult (r : ParseResult) : List HostData :=
  match r with
  | .err _ => []
  | .ok p => p.hosts

/-- `extract_devices` applied to a `parse_xml` result. -/
def extractFromResult (r : ParseResult) : List DeviceData :=
  extract_devices (hostsOfResult r)

/-! ## Classifier (src/pulse/services/device_recognition.py) -/

/-- One configured classification rule
(`recognition.classification.<type>`): `ports`, `keywords` and `services`
lists.  The source guards each part with a key-presence check; an absent key
scores like an empty list, so the embedding collapses both to `[]`. -/
structure Rule where
  ports : List Nat := []
  keywords : List String := []
  services : List String := []
  deriving Repr, DecidableEq, Inhabited

/-- The lowered keyword-matching text of `classify_device` (line 63):
hostname, vendor, OS name and OS family, each defaulted to `''`, joined with
single spaces and lowered. -/
def classifyText (d : DeviceData) : String :=
  let hostname := strLower ((pyGet d.hostname).getD "")
  let vendor := strLower ((pyGet d.vendor).getD "")
  let os_name := strLower ((pyGet d.os_name).getD "")
  let os_family := strLower ((pyGet d.os_family).getD "")
  strLower (hostname ++ " " ++ vendor ++ " " ++ os_name ++ " " ++ os_family)

/-- The port list the classifier walks:
`device_data.get('metadata', {}).get('ports')` with missing levels read as
empty. -/
def metaPortsOf (d : DeviceData) : List PortData :=
  (((pyGet d.metadata).getD {}).ports).getD []

/-- The open-port set of `classify_device` (lines 44-50): numeric ports of
entries with `state == 'open'` and a truthy port string. -/
def classifyOpenPorts (d : DeviceData) : Finset Nat :=
  ((metaPortsOf d).filter (fun p => p.state = some "open")).foldl
    (fun acc p => match p.port with
      | some n => insert n acc
      | none => acc) ∅

/-- The service-name set of `classify_device` (lines 53-60): lowered names of
services on open ports, skipping empty names. -/
def classifyServices (d : DeviceData) : Finset String :=
  ((metaPortsOf d).filter (fun p => p.state = some "open")).foldl
    (fun acc p => match p.service with
      | some sv => if sv.name ≠ "" then insert (strLower sv.name) acc else acc
      | none => acc) ∅

/-- Score of one rule in `classify_device` (lines 68-92): `+10` per matching
open port, `+20` per keyword substring hit, `+15` per matching service name. -/
def ruleScore (r : Rule) (openPorts : Finset Nat) (services : Finset String)
    (text : String) : Nat :=
  let portScore :=
    let matching := openPorts ∩ r.ports.toFinset
    if matching ≠ ∅ then matching.card * 10 else 0
  let kwScore := r.keywords.foldl
    (fun s kw => if strIn (strLower kw) text then s + 20 else s) 0
  let svcScore :=
    let matching := services ∩ (r.services.map (fun s => strLower s)).toFinset
    if matching ≠ ∅ then matching.card * 15 else 0
  portScore + kwScore + svcScore

/-- The `scores` dict of `classify_device` as the insertion-ordered
association list it is: one entry per configured rule with positive score, in
rule definition order. -/
def classifyScores (rules : List (String × Rule)) (d : DeviceData) :
    List (String × Nat) :=
  let openPorts := classifyOpenPorts d
  let services := classifyServices d
  let text := classifyText d
  rules.foldl (fun acc nr =>
    let s := ruleScore nr.2 openPorts services text
    if s > 0 then acc ++ [(nr.1, s)] else acc) []

/-- The OS-family fallback of `classify_device` (lines 100-113). -/
def classifyFallback (d : DeviceData) : String :=
  let os_name := strLower ((pyGet d.os_name).getD "")
  let os_family := strLower ((pyGet d.os_family).getD "")
  if strIn "windows" os_name || strIn "windows" os_family then "workstation"
  else if ["linux", "unix", "bsd"].any
      (fun x => strIn x os_name || strIn x os_family) then
    let server_ports : Finset Nat := {22, 80, 443, 3306, 5432, 6379, 8080}
    if classifyOpenPorts d ∩ server_ports ≠ ∅ then "server" else "workstation"
  else if strIn "android" os_name || strIn "ios" os_name then "mobile"
  else "unknown"

/-- `DeviceRecognition.classify_device` (lines 27-113):
`max(scores, key=scores.get)` when some rule scored, else the OS fallback. -/
def classify_device (rules : List (String × Rule)) (d : DeviceData) : String :=
  match pyMaxBy (fun p => p.2) (classifyScores rules d) with
  | some best => best.1
  | none => classifyFallback d

/-! ## DeviceStore (src/pulse/storage/db.py)

The SQLite tables become lists of row structures; `CURRENT_TIMESTAMP` becomes
an explicit `Nat` parameter threaded through each statement. -/

/-- A row of the `devices` table.  `metadata` is the decoded JSON text column:
`none` models the serialized JSON `null` (`json.dumps(None)`), `some m` the
serialization of `m`; the column itself is never SQL-NULL on these paths. -/
structure DeviceRow where
  id : Nat := 0
  ip_address : Option String := none
  mac_address : Option String := none
  hostname : Option String := none
  vendor : Option String := none
  oui : Option String := none
  device_type : Option String := none
  os_name : Option String := none
  os_family : Option String := none
  os_version : Option String := none
  os_accuracy : Option Int := none
  status : Option String := none
  metadata : Option DevMeta := some {}
  is_active : Bool := true
  first_seen : Nat := 0
  last_seen : Nat := 0
  deriving Repr, DecidableEq, Inhabited

/-- The `status` value bound by `Database.add_device`:
`device_data.get('status', 'up')`. -/
def statusVal (d : DeviceData) : Option String :=
  match d.status with
  | none => some "up"
  | some v => v

/-- The `metadata` value bound by `Database.add_device`:
`json.dumps(device_data.get('metadata', {}))`. -/
def metaVal (d : DeviceData) : Option DevMeta :=
  match d.metadata with
  | none => some {}
  | some none => none
  | some (some m) => some m

/-- The row written by the `ON CONFLICT(ip_address) DO UPDATE SET` branch of
`Database.add_device` (db.py lines 101-113): every observation column is set
from the excluded row and `last_seen` from `CURRENT_TIMESTAMP`; `id`,
`ip_address`, `first_seen` and `is_active` are not in the `SET` list. -/
def updateDeviceRow (t : Nat) (d : DeviceData) (r : DeviceRow) : DeviceRow :=
  { r with
    mac_address := pyGet d.mac_address
    hostname := pyGet d.hostname
    vendor := pyGet d.vendor
    oui := pyGet d.oui
    device_type := pyGet d.device_type
    os_name := pyGet d.os_name
    os_family := pyGet d.os_family
    os_version := pyGet d.os_version
    os_accuracy := pyGet d.os_accuracy
    status := statusVal d
    metadata := metaVal d
    last_seen := t }

/-- The row written by the `INSERT` branch of `Database.add_device`.  The
schema file (`schema.sql`) is not part of the sources; its column defaults are
Modelled from the spec: "If absent, inserts with `first_seen=last_seen=now`"
(§4.6) and an active device row, with `id` the autoincrement rowid. -/
def insertDeviceRow (newId t : Nat) (d : DeviceData) : DeviceRow :=
  { id := newId
    ip_address := pyGet d.ip_address
    mac_address := pyGet d.mac_address
    hostname := pyGet d.hostname
    vendor := pyGet d.vendor
    oui := pyGet d.oui
    device_type := pyGet d.device_type
    os_name := pyGet d.os_name
    os_family := pyGet d.os_family
    os_version := pyGet d.os_version
    os_accuracy := pyGet d.os_accuracy
    status := statusVal d
    metadata := metaVal d
    is_active := true
    first_seen := t
    last_seen := t }

/-- `Database.add_device` (db.py lines 92-128): an upsert keyed on
`ip_address`.  A conflict fires only for a non-NULL `ip_address` equal to an
existing row's (SQL UNIQUE never matches NULLs); the update touches exactly
the conflicting rows.  Returns the affected rowid and the new table. -/
def add_device_full (t : Nat) (d : DeviceData) (rows : List DeviceRow) :
    Nat × List DeviceRow :=
  let newIp := pyGet d.ip_address
  if newIp ≠ none ∧ rows.any (fun r => r.ip_address = newIp) then
    (((rows.find? (fun r => r.ip_address = newIp)).map (fun r => r.id)).getD 0,
     rows.map (fun r => if r.ip_address = newIp then updateDeviceRow t d r else r))
  else
    let newId := rows.length + 1
    (newId, rows ++ [insertDeviceRow newId t d])

/-- The table after `Database.add_device`. -/
def add_device (t : Nat) (d : DeviceData) (rows : List DeviceRow) :
    List DeviceRow :=
  (add_device_full t d rows).2

/-- A row of the `ports` table. -/
structure PortRow where
  device_id : Nat := 0
  port_number : Nat := 0
  protocol : String := "tcp"
  state : Option String := none
  service_name : Option String := none
  service_product : Option String := none
  service_version : Option String := none
  service_extrainfo : Option String := none
  last_seen : Nat := 0
  deriving Repr, DecidableEq, Inhabited

/-- The `port_data` dict passed to `Database.add_port`. -/
structure PortInsert where
  device_id : Nat := 0
  port_number : Nat := 0
  protocol : String := "tcp"
  state : Option String := none
  service_name : Option String := none
  service_product : Option String := none
  service_version : Option String := none
  service_extrainfo : Option String := none
  deriving Repr, DecidableEq, Inhabited

/-- Key match of the `ports` upsert: `(device_id, port_number, protocol)`. -/
def portKeyMatch (p : PortInsert) (r : PortRow) : Bool :=
  decide (r.device_id = p.device_id ∧ r.port_number = p.port_number ∧
    r.protocol = p.protocol)

/-- `Database.add_port` (db.py lines 265-290): upsert on
`(device_id, port_number, protocol)`, overwriting state and service fields and
refreshing `last_seen` (the insert-side `last_seen` default is Modelled from
the spec, the schema file being absent from the sources). -/
def updatePortRow (t : Nat) (p : PortInsert) (r : PortRow) : PortRow :=
  { r with state := p.state, service_name := p.service_name,
           service_product := p.service_product,
           service_version := p.service_version,
           service_extrainfo := p.service_extrainfo, last_seen := t }

/-- The row written by the `INSERT` side of the ports upsert (the `last_seen`
column default is Modelled from the spec, the schema file being absent). -/
def insertPortRow (t : Nat) (p : PortInsert) : PortRow :=
  { device_id := p.device_id, port_number := p.port_number,
    protocol := p.protocol, state := p.state,
    service_name := p.service_name,
    service_product := p.service_product,
    service_version := p.service_version,
    service_extrainfo := p.service_extrainfo, last_seen := t }

def add_port (t : Nat) (p : PortInsert) (rows : List PortRow) : List PortRow :=
  if rows.any (portKeyMatch p) then
    rows.map (fun r => if portKeyMatch p r then updatePortRow t p r else r)
  else
    rows ++ [insertPortRow t p]

/-- A row of the `events` table (append-only here). -/
structure EventRow where
  event_type : Option String := none
  severity : String := "info"
  device_id : Option Nat := none
  title : Option String := none
  description : Option String := none
  deriving Repr, DecidableEq, Inhabited

/-- `Database.create_event` (db.py lines 304-320): a plain insert. -/
def create_event (e : EventRow) (rows : List EventRow) : List EventRow :=
  rows ++ [e]

/-! ## ScanInvoker (src/pulse/scanner/engine.py) -/

/-- Outcome of the `subprocess.run` call inside `NmapScanner.scan`: normal
completion with an exit code and captured output plus the scratch-file
contents (none when the file is missing or empty), expiry of the wall-clock
timeout, or any other raised exception. -/
inductive ProcOutcome where
  | finished (returncode : Int) (stdout stderr : String) (xml : Option XmlStr)
  | timedOut
  | raised (msg : String)
  deriving Repr, Inhabited

/-- The result dict of `NmapScanner.scan`.  Keys not set on a given path are
`none`. -/
structure ScanDict where
  success : Bool := false
  return_code : Option Int := none
  command : Option String := none
  target : String := ""
  scan_type : String := ""
  start_time : String := ""
  end_time : Option String := none
  duration : Option Nat := none
  stdout : Option String := none
  stderr : Option String := none
  xml_output : Option XmlStr := none
  nmap_version : Option String := none
  error : Option String := none
  deriving Repr, Inhabited

/-- `NmapScanner.scan` (engine.py lines 124-225).  The external pieces are
parameters: the built command line, wall-clock readings (`startTime,
endTime`), the measured duration in seconds, the tool version, and the
subprocess outcome.  On success the dict mirrors lines 174-187; on
`TimeoutExpired` lines 199-207; on any other exception lines 211-217. -/
def nmapScan (target scanType : String) (timeout : Nat) (cmd : String)
    (startTime endTime : String) (measured : Nat) (version : String)
    (outcome : ProcOutcome) : ScanDict :=
  match outcome with
  | .finished rc out err xml =>
    { success := rc = 0
      return_code := some rc
      command := some cmd
      target := target
      scan_type := scanType
      start_time := startTime
      end_time := some endTime
      duration := some measured
      stdout := some out
      stderr := some err
      xml_output := xml
      nmap_version := some version }
  | .timedOut =>
    { success := false
      error := some ("Scan timeout after " ++ toString timeout ++ "s")
      command := some cmd
      target := target
      scan_type := scanType
      start_time := startTime
      duration := some timeout }
  | .raised msg =>
    { success := false
      error := some msg
      target := target
      scan_type := scanType
      start_time := startTime }

/-! ## WorkerPool / ScanOrchestrator (src/pulse/scanner/worker.py) -/

/-- Task status values (§3): the `status` column of `scan_tasks`. -/
inductive TStatus where
  | pending
  | running
  | completed
  | failed
  deriving Repr, DecidableEq, Inhabited

/-- Truthiness of `result.get('xml_output')` in `_scan_worker`: `None` and
the empty string are falsy. -/
def xmlTruthy (x : Option XmlStr) : Bool :=
  match x with
  | none => false
  | some .emptyStr => false
  | some _ => true

/-- The result dict after `ScanWorkerPool._scan_worker` (worker.py lines
81-92): when the scan succeeded and produced structured output, the parse
result and extracted device list are attached; `success` is never altered. -/
structure WorkerResult where
  success : Bool := false
  error : Option String := none
  parsed_data : Option ParseResult := none
  devices : Option (List DeviceData) := none
  xml_output : Option XmlStr := none
  deriving Repr, Inhabited

/-- `ScanWorkerPool._scan_worker` post-scan processing (worker.py lines
81-92) applied to an engine result. -/
def scan_worker (res : ScanDict) : WorkerResult :=
  if res.success ∧ xmlTruthy res.xml_output then
    let parsed := parse_xml ((res.xml_output).getD .emptyStr)
    { success := res.success
      error := res.error
      parsed_data := some parsed
      devices := some (extractFromResult parsed)
      xml_output := res.xml_output }
  else
    { success := res.success
      error := res.error
      xml_output := res.xml_output }

/-- The task status written by `ScanOrchestrator.execute_task` after the
worker result is in (worker.py lines 286-289): `completed` iff the result's
`success` flag is set, `failed` otherwise. -/
def executeTaskFinalStatus (w : WorkerResult) : TStatus :=
  if w.success then .completed else .failed

/-- Database state touched by `_process_scan_result` reconciliation. -/
structure DbState where
  devices : List DeviceRow := []
  ports : List PortRow := []
  events : List EventRow := []
  deriving Repr, Inhabited

/-- The `ports` list `_process_scan_result` walks for one device:
`device_data.get('metadata', {}).get('ports', [])`. -/
def workerPortsOf (d : DeviceData) : List PortData :=
  metaPortsOf d

/-- The `port_data` dict built at worker.py lines 391-400 for one parsed
port. -/
def portInsertOf (devId : Nat) (n : Nat) (p : PortData) : PortInsert :=
  { device_id := devId
    port_number := n
    protocol := p.protocol
    state := some (p.state.getD "unknown")
    service_name := p.service.map (fun sv => sv.name)
    service_product := p.service.map (fun sv => sv.product)
    service_version := p.service.map (fun sv => sv.version)
    service_extrainfo := p.service.map (fun sv => sv.extrainfo) }

/-- The port loop of `_process_scan_result` (worker.py lines 386-402): each
port is added under its own `try`; a port whose `portid` string is empty makes
`int(...)` raise, which is caught and only skips that port. -/
def addDevicePorts (t devId : Nat) : List PortData → List PortRow → List PortRow
  | [], rows => rows
  | p :: ps, rows =>
    addDevicePorts t devId ps
      (match p.port with
       | some n => add_port t (portInsertOf devId n p) rows
       | none => rows)

/-- The `device_discovered` event built at worker.py lines 404-411. -/
def discoveredEvent (devId : Nat) (d : DeviceData) : EventRow :=
  { event_type := some "device_discovered"
    severity := "info"
    device_id := some devId
    title := some ("Device discovered: " ++ pyStr (pyGet d.ip_address))
    description := some ("New device found - " ++
      pyStr (pyOr (pyGet d.hostname) (pyGet d.ip_address))) }

/-- One iteration of the device loop of `_process_scan_result` (worker.py
lines 377-416) when no exception fires: upsert the device, upsert its ports,
record the discovery event. -/
def processOneDevice (t : Nat) (d : DeviceData) (st : DbState) : DbState :=
  let (devId, devices) := add_device_full t d st.devices
  let ports := addDevicePorts t devId (workerPortsOf d) st.ports
  let events := create_event (discoveredEvent devId d) st.events
  { devices := devices, ports := ports, events := events }

/-- The device loop of `_process_scan_result` with a failure oracle: `fails i
= true` means persisting device `i` (`Database.add_device`) raises; the
surrounding `try/except` logs and `continue`s, so that iteration performs no
writes and the loop moves on (worker.py lines 377-416). -/
def processDevicesFrom (t : Nat) (fails : Nat → Bool) :
    Nat → List DeviceData → DbState → DbState
  | _, [], st => st
  | i, d :: ds, st =>
    processDevicesFrom t fails (i + 1) ds
      (if fails i then st else processOneDevice t d st)

/-- The whole device loop, enumerating from index 0. -/
def processDevices (t : Nat) (fails : Nat → Bool) (devs : List DeviceData)
    (st : DbState) : DbState :=
  processDevicesFrom t fails 0 devs st

/-! ## Task lifecycle (scan_tasks table and its drivers)

The operations that touch the `status` column are `Database.create_scan_task`
(a pending insert), `Database.update_task_status` and
`Database.get_pending_tasks` (db.py lines 164-215).  They are driven by three
code paths: one-time task creation (`ScanScheduler.schedule_one_time_scan`),
direct execution (`ScanScheduler._run_scan` /`_run_discovery_scan`, which
create a pending task and run `ScanOrchestrator.execute_task` on it), and the
30-second backlog sweep (`ScanScheduler._process_pending_tasks`, which
fetches pending tasks and runs `execute_task` on each).
`execute_task` (worker.py lines 256-296) sets `running` without examining the
current status, then `completed` or `failed`.  Each store operation is one
atomic SQLite statement; the flows below interleave at that granularity,
matching the thread pools driving them.  `hist` logs every status the store
holds for a task over time, including the inserted `pending`. -/

structure TaskRow where
  id : Nat := 0
  status : TStatus := .pending
  deriving Repr, DecidableEq, Inhabited

structure TaskStore where
  rows : List TaskRow := []
  hist : List (Nat × TStatus) := []
  deriving Repr, DecidableEq, Inhabited

/-- `Database.create_scan_task` as used by the system: inserts a fresh row
with status `pending` (every system caller passes or defaults the status to
`'pending'`); the id is the autoincrement rowid. -/
def createTask (s : TaskStore) : Nat × TaskStore :=
  let id := s.rows.length + 1
  (id, { rows := s.rows ++ [{ id := id, status := .pending }],
         hist := s.hist ++ [(id, .pending)] })

/-- `Database.update_task_status` restricted to the status column (db.py
lines 194-215; the branches differ only in which timestamp columns they also
touch). -/
def updateStatus (id : Nat) (st : TStatus) (s : TaskStore) : TaskStore :=
  { rows := s.rows.map (fun r => if r.id = id then { r with status := st } else r),
    hist := s.hist ++ [(id, st)] }

/-- The current status of a task. -/
def rowStatus (id : Nat) (s : TaskStore) : Option TStatus :=
  (s.rows.find? (fun r => r.id = id)).map (fun r => r.status)

/-- `Database.get_pending_tasks` projected to ids: the rows with
`status = 'pending'` (the `scheduled_at`, priority ordering and `LIMIT`
clauses select among pending rows and do not affect which transitions are
possible). -/
def pendingIds (s : TaskStore) : List Nat :=
  (s.rows.filter (fun r => r.status = TStatus.pending)).map (fun r => r.id)

/-- Terminal status from a pipeline outcome (worker.py lines 286-289). -/
def termOf (b : Bool) : TStatus :=
  if b then .completed else .failed

/-- Program counter of one in-flight driver, at store-operation granularity.
`aStart` is a one-time task creation; `dStart` a direct create-and-execute
(`_run_scan` followed by `execute_task`); `sStart` the backlog sweep, whose
fetched id list is fixed at its read (`sRun`/`sFin` walk it, writing
`running` then the terminal status for each id, as `execute_task` does). -/
inductive FlowPC where
  | aStart
  | dStart (outcome : Bool)
  | dCreated (id : Nat) (outcome : Bool)
  | dRunning (id : Nat) (outcome : Bool)
  | sStart (outcomes : Nat → Bool)
  | sRun (ids : List Nat) (outcomes : Nat → Bool)
  | sFin (ids : List Nat) (outcomes : Nat → Bool)
  | flowDone
  deriving Inhabited

/-- One atomic store operation of one driver. -/
def stepFlow (s : TaskStore) : FlowPC → Option (TaskStore × FlowPC)
  | .aStart => some ((createTask s).2, .flowDone)
  | .dStart o =>
    let (id, s1) := createTask s
    some (s1, .dCreated id o)
  | .dCreated id o => some (updateStatus id .running s, .dRunning id o)
  | .dRunning id o => some (updateStatus id (termOf o) s, .flowDone)
  | .sStart f => some (s, .sRun (pendingIds s) f)
  | .sRun [] _ => some (s, .flowDone)
  | .sRun (i :: ids) f => some (updateStatus i .running s, .sFin (i :: ids) f)
  | .sFin [] _ => some (s, .flowDone)
  | .sFin (i :: ids) f => some (updateStatus i (termOf (f i)) s, .sRun ids f)
  | .flowDone => none

/-- A system configuration: the shared store plus every driver's state. -/
structure Sys where
  store : TaskStore := {}
  flows : List FlowPC := []

/-- Advance driver `j` by one store operation. -/
def stepSys (sys : Sys) (j : Nat) : Option Sys :=
  match sys.flows[j]? with
  | none => none
  | some pc =>
    (stepFlow sys.store pc).map (fun r =>
      { store := r.1, flows := sys.flows.set j r.2 })

/-- Run an interleaving schedule (a list of driver indices) from a starting
configuration; `none` when the schedule asks a finished driver to step. -/
def runSched (sched : List Nat) (sys : Sys) : Option Sys :=
  sched.foldl (fun acc j => acc.bind (fun s => stepSys s j)) (some sys)

/-- The status history of one task: every value the `status` column has held,
in write order. -/
def histOf (id : Nat) (s : TaskStore) : List TStatus :=
  (s.hist.filter (fun p => p.1 = id)).map (fun p => p.2)

/-- The transitions the specification's task state machine allows:
`pending → running → {completed, failed}`. -/
def allowedB : TStatus → TStatus → Bool
  | .pending, .running => true
  | .running, .completed => true
  | .running, .failed => true
  | _, _ => false

/-- A status history the specification accepts: starts at `pending` and every
adjacent pair is an allowed transition. -/
def goodHist (l : List TStatus) : Prop :=
  l.head? = some TStatus.pending ∧ List.Chain' (fun a b => allowedB a b = true) l

/-- Whether a history observes a `completed → running` transition. -/
def hasCompletedThenRunning (l : List TStatus) : Bool :=
  (l.zip l.tail).any (fun p => p.1 = TStatus.completed ∧ p.2 = TStatus.running)

/-- The three driver kinds, for the sequential (non-interleaved) semantics. -/
inductive FlowSpec where
  | createOnly
  | direct (outcome : Bool)
  | sweep (outcomes : Nat → Bool)

/-- The sweep body run to completion: for each fetched id, `execute_task`
writes `running` then the terminal status. -/
def runSweepIds (f : Nat → Bool) (ids : List Nat) (s : TaskStore) : TaskStore :=
  ids.foldl (fun st i => updateStatus i (termOf (f i)) (updateStatus i .running st)) s

/-- One driver run to completion with no interleaving. -/
def runFlowSeq (s : TaskStore) : FlowSpec → TaskStore
  | .createOnly => (createTask s).2
  | .direct o =>
    let (id, s1) := createTask s
    updateStatus id (termOf o) (updateStatus id .running s1)
  | .sweep f => runSweepIds f (pendingIds s) s

/-- Sequential execution of a list of drivers from the empty store. -/
def runSeq (flows : List FlowSpec) : TaskStore :=
  flows.foldl runFlowSeq {}

/-- Invariant of the task store under the system's drivers: row ids are the
autoincrement range (bounded, distinct); every row's status history ends in
its current status and is an accepted history; histories exist only for
existing rows. -/
def TaskInv (st : TaskStore) : Prop :=
  (∀ r ∈ st.rows, 1 ≤ r.id ∧ r.id ≤ st.rows.length) ∧
  ((st.rows.map (fun r => r.id)).Nodup) ∧
  (∀ r ∈ st.rows, (histOf r.id st).getLast? = some r.status ∧
    goodHist (histOf r.id st)) ∧
  (∀ id : Nat, histOf id st ≠ [] → ∃ r ∈ st.rows, r.id = id)

/-! ## Projections used to state the claims -/

/-- The eleven observation columns of a device row, bundled. -/
structure ObsFields where
  mac_address : Option String := none
  hostname : Option String := none
  vendor : Option String := none
  oui : Option String := none
  device_type : Option String := none
  os_name : Option String := none
  os_family : Option String := none
  os_version : Option String := none
  os_accuracy : Option Int := none
  status : Option String := none
  metadata : Option DevMeta := none
  deriving Repr, DecidableEq, Inhabited

/-- The observation columns a device row currently holds. -/
def obsOf (r : DeviceRow) : ObsFields :=
  { mac_address := r.mac_address, hostname := r.hostname, vendor := r.vendor,
    oui := r.oui, device_type := r.device_type, os_name := r.os_name,
    os_family := r.os_family, os_version := r.os_version,
    os_accuracy := r.os_accuracy, status := r.status, metadata := r.metadata }

/-- The column values `Database.add_device` binds for an observation: each
read with `.get(...)` (default `None`), except the `'up'` default for status
and the `{}` default for metadata. -/
def storedOf (d : DeviceData) : ObsFields :=
  { mac_address := pyGet d.mac_address, hostname := pyGet d.hostname,
    vendor := pyGet d.vendor, oui := pyGet d.oui,
    device_type := pyGet d.device_type, os_name := pyGet d.os_name,
    os_family := pyGet d.os_family, os_version := pyGet d.os_version,
    os_accuracy := pyGet d.os_accuracy, status := statusVal d,
    metadata := metaVal d }

/-- The rows of the devices table holding a given (non-NULL) IP. -/
def rowsForIp (ip : String) (rows : List DeviceRow) : List DeviceRow :=
  rows.filter (fun r => r.ip_address = some ip)

/-- At most one row per non-NULL IP: the `UNIQUE(ip_address)` table
invariant. -/
def UniqIp (rows : List DeviceRow) : Prop :=
  ∀ ip : String, (rowsForIp ip rows).length ≤ 1

/-- Effective metadata port list of a stored or extracted device, as every
consumer reads it: `.get('metadata', {}).get('ports', [])`. -/
def metaPortsD (d : DeviceData) : List PortData :=
  metaPortsOf d

/-- Effective `open_ports_count`, read with a `0` default. -/
def metaOpenCountD (d : DeviceData) : Nat :=
  ((((pyGet d.metadata).getD {}).open_ports_count).getD 0)

/-- Number of loop iterations the failure oracle lets through, starting at
index `i0` — the number of devices actually processed. -/
def countProcessed {A : Type} (fails : Nat → Bool) : Nat → List A → Nat
  | _, [] => 0
  | i, _ :: ds => (if fails i then 0 else 1) + countProcessed fails (i + 1) ds

/-- A device observation is persisted: some row holds its IP and its eleven
stored observation columns. -/
def devicePersisted (d : DeviceData) (st : DbState) : Prop :=
  ∃ r ∈ st.devices, r.ip_address = pyGet d.ip_address ∧ obsOf r = storedOf d

/-- The upsert key (port number, protocol) of a parsed port, when its portid
is numeric. -/
def portKeyOf (p : PortData) : Option (Nat × String) :=
  p.port.map (fun n => (n, p.protocol))

/-! ## Concrete sample data used by the closed witnesses -/

def exService : ServiceInfo := { name := "http" }

def exPortOpen : PortData :=
  { port := some 80, state := some "open", service := some exService }

def exPortClosed : PortData := { port := some 443, state := some "closed" }

def exHostMac : HostData :=
  { status := "up", ip_address := some "192.168.1.100",
    mac_address := some "aa:bb:cc:dd:ee:ff", vendor := some "Test Vendor" }

def exHostDown : HostData := { status := "down", ip_address := some "192.168.1.5" }

def exHostPorts : HostData :=
  { status := "up", ip_address := some "192.168.1.101",
    ports := [exPortOpen, exPortClosed] }

def exRules : List (String × Rule) :=
  [("router", { ports := [80, 443], keywords := ["router"] }),
   ("web", { ports := [80, 443], services := ["http"] })]

def exDevice : DeviceData := deviceOfHost exHostPorts

def exObsA : DeviceData :=
  { ip_address := some (some "10.0.0.1"), status := some (some "down"),
    hostname := some (some "printer-1") }

def exObsB : DeviceData := { ip_address := some (some "10.0.0.1") }

/-- A three-device batch for the reconciliation witness: a MAC-bearing
device, a device with two ports, and a bare observation. -/
def exBatch : List DeviceData :=
  [deviceOfHost exHostMac, deviceOfHost exHostPorts, exObsA]

/-! ## Lemmas about Python `max(..., key=f)` -/

section MaxByLemmas

variable {α β : Type} [LinearOrder β] (f : α → β)

theorem maxby_foldl_le (l : List α) :
    ∀ acc, f acc ≤ f (l.foldl (fun a y => if f a < f y then y else a) acc) := by
  induction l with
  | nil => intro acc; exact le_rfl
  | cons x xs ih =>
    intro acc
    simp only [List.foldl_cons]
    refine le_trans ?_ (ih (if f acc < f x then x else acc))
    split
    · exact le_of_lt (by assumption)
    · exact le_rfl

theorem maxby_foldl_mem_le (l : List α) :
    ∀ acc x, x ∈ l →
      f x ≤ f (l.foldl (fun a y => if f a < f y then y else a) acc) := by
  induction l with
  | nil => intro acc x hx; cases hx
  | cons y ys ih =>
    intro acc x hx
    simp only [List.foldl_cons]
    rcases List.mem_cons.mp hx with h | h
    · subst h
      refine le_trans ?_ (maxby_foldl_le f ys (if f acc < f x then x else acc))
      split
      · exact le_rfl
      · exact le_of_not_lt (by assumption)
    · exact ih _ x h

theorem maxby_foldl_mem (l : List α) :
    ∀ acc, l.foldl (fun a y => if f a < f y then y else a) acc = acc ∨
      l.foldl (fun a y => if f a < f y then y else a) acc ∈ l := by
  induction l with
  | nil => intro acc; left; rfl
  | cons y ys ih =>
    intro acc
    simp only [List.foldl_cons]
    rcases ih (if f acc < f y then y else acc) with h | h
    · rw [h]
      split
      · right; exact List.mem_cons_self y ys
      · left; rfl
    · right; exact List.mem_cons_of_mem y h

theorem maxby_foldl_const (l : List α) (acc : α)
    (h : ∀ y ∈ l, f y ≤ f acc) :
    l.foldl (fun a y => if f a < f y then y else a) acc = acc := by
  induction l with
  | nil => rfl
  | cons y ys ih =>
    simp only [List.foldl_cons]
    have hy : ¬ f acc < f y := not_lt.mpr (h y (List.mem_cons_self y ys))
    rw [if_neg hy]
    exact ih (fun z hz => h z (List.mem_cons_of_mem y hz))

theorem maxby_foldl_reach (m : α) (post : List α)
    (hpost : ∀ y ∈ post, f y ≤ f m) :
    ∀ pre acc, f acc < f m → (∀ y ∈ pre, f y < f m) →
      (pre ++ m :: post).foldl (fun a y => if f a < f y then y else a) acc = m := by
  intro pre
  induction pre with
  | nil =>
    intro acc hacc _
    simp only [List.nil_append, List.foldl_cons]
    rw [if_pos hacc]
    exact maxby_foldl_const f post m hpost
  | cons p ps ih =>
    intro acc hacc hpre
    simp only [List.cons_append, List.foldl_cons]
    have hp : f p < f m := hpre p (List.mem_cons_self p ps)
    have hstep : f (if f acc < f p then p else acc) < f m := by
      split
      · exact hp
      · exact hacc
    exact ih _ hstep (fun z hz => hpre z (List.mem_cons_of_mem p hz))

/-- Python `max` returns the first element attaining the maximum: if
everything before `m` is strictly below it and nothing after exceeds it,
`m` is selected. -/
theorem pyMaxBy_first (pre : List α) (m : α) (post : List α)
    (hpre : ∀ y ∈ pre, f y < f m) (hpost : ∀ y ∈ post, f y ≤ f m) :
    pyMaxBy f (pre ++ m :: post) = some m := by
  cases pre with
  | nil =>
    simp only [List.nil_append, pyMaxBy]
    rw [maxby_foldl_const f post m hpost]
  | cons p ps =>
    simp only [List.cons_append, pyMaxBy]
    rw [maxby_foldl_reach f m post hpost ps p
      (hpre p (List.mem_cons_self p ps))
      (fun z hz => hpre z (List.mem_cons_of_mem p hz))]

/-- Python `max` returns a member attaining the maximal key. -/
theorem pyMaxBy_spec (l : List α) (m : α) (h : pyMaxBy f l = some m) :
    m ∈ l ∧ ∀ x ∈ l, f x ≤ f m := by
  cases l with
  | nil => cases h
  | cons x xs =>
    simp only [pyMaxBy, Option.some.injEq] at h
    subst h
    constructor
    · rcases maxby_foldl_mem f xs x with h | h
      · rw [h]; exact List.mem_cons_self x xs
      · exact List.mem_cons_of_mem x h
    · intro y hy
      rcases List.mem_cons.mp hy with h | h
      · subst h; exact maxby_foldl_le f xs y
      · exact maxby_foldl_mem_le f xs x y h

end MaxByLemmas

/-! ## C6: best OS match selection -/

/-- C6: for every host with a non-empty list of OS match candidates,
`_parse_os` selects a candidate whose integer accuracy is maximal, and among
candidates sharing the maximal accuracy the first-encountered one wins. -/
theorem bestOsMatch_max_first (ms : List OsMatch) (hne : ms ≠ []) :
    ∃ m, bestOsMatch ms = some m ∧ m ∈ ms ∧
      (∀ x ∈ ms, x.accuracy ≤ m.accuracy) ∧
      ∀ pre x post, ms = pre ++ x :: post →
        (∀ y ∈ pre, y.accuracy < x.accuracy) →
        (∀ y ∈ post, y.accuracy ≤ x.accuracy) → m = x := by
  obtain ⟨m, hm⟩ : ∃ m, bestOsMatch ms = some m := by
    cases ms with
    | nil => exact absurd rfl hne
    | cons x xs => exact ⟨_, rfl⟩
  have hm₂ : pyMaxBy (fun m => m.accuracy) ms = some m := hm
  obtain ⟨hmem, hle⟩ := pyMaxBy_spec (fun m => m.accuracy) ms m hm₂
  refine ⟨m, hm, hmem, hle, ?_⟩
  intro pre x post hdec hpre hpost
  have hx : bestOsMatch ms = some x := by
    rw [hdec]
    exact pyMaxBy_first (fun m => m.accuracy) pre x post hpre hpost
  rw [hm] at hx
  exact (Option.some.injEq _ _).mp hx

/-- Witness for C6 at a concrete candidate list with a tie at accuracy 95. -/
theorem bestOsMatch_max_first_witness :
    ∃ m, bestOsMatch [{ name := "A", accuracy := 90 },
        { name := "B", accuracy := 95 }, { name := "C", accuracy := 95 }] = some m ∧
      m ∈ [({ name := "A", accuracy := 90 } : OsMatch),
        { name := "B", accuracy := 95 }, { name := "C", accuracy := 95 }] ∧
      (∀ x ∈ [({ name := "A", accuracy := 90 } : OsMatch),
        { name := "B", accuracy := 95 }, { name := "C", accuracy := 95 }],
        x.accuracy ≤ m.accuracy) ∧
      ∀ pre x post,
        [({ name := "A", accuracy := 90 } : OsMatch),
          { name := "B", accuracy := 95 }, { name := "C", accuracy := 95 }] =
            pre ++ x :: post →
        (∀ y ∈ pre, y.accuracy < x.accuracy) →
        (∀ y ∈ post, y.accuracy ≤ x.accuracy) → m = x :=
  bestOsMatch_max_first
    [{ name := "A", accuracy := 90 }, { name := "B", accuracy := 95 },
     { name := "C", accuracy := 95 }] (by decide)

/-! ## C4: classifier scoring and selection -/

theorem foldl_add_if_eq_countP (c : Nat) (p : String → Bool) (l : List String) :
    ∀ n : Nat, l.foldl (fun s kw => if p kw then s + c else s) n =
      n + c * l.countP p := by
  induction l with
  | nil => intro n; simp
  | cons x xs ih =>
    intro n
    simp only [List.foldl_cons, List.countP_cons]
    by_cases hx : p x
    · rw [if_pos hx, ih]
      simp only [hx, if_pos]
      ring
    · rw [if_neg hx, ih]
      simp [hx]

theorem ruleScore_formula (r : Rule) (op : Finset Nat) (sv : Finset String)
    (text : String) :
    ruleScore r op sv text =
      10 * (op ∩ r.ports.toFinset).card +
      20 * r.keywords.countP (fun kw => strIn (strLower kw) text) +
      15 * (sv ∩ (r.services.map (fun s => strLower s)).toFinset).card := by
  unfold ruleScore
  rw [foldl_add_if_eq_countP]
  by_cases hp : op ∩ r.ports.toFinset = ∅ <;>
    by_cases hs : sv ∩ (r.services.map (fun s => strLower s)).toFinset = ∅ <;>
      simp [hp, hs] <;> ring

theorem classifyScores_eq_filterMap (rules : List (String × Rule))
    (d : DeviceData) :
    classifyScores rules d = rules.filterMap (fun nr =>
      let s := ruleScore nr.2 (classifyOpenPorts d) (classifyServices d)
        (classifyText d)
      if s > 0 then some (nr.1, s) else none) := by
  unfold classifyScores
  suffices h : ∀ (rs : List (String × Rule)) (acc : List (String × Nat)),
      rs.foldl (fun acc nr =>
        let s := ruleScore nr.2 (classifyOpenPorts d) (classifyServices d)
          (classifyText d)
        if s > 0 then acc ++ [(nr.1, s)] else acc) acc =
      acc ++ rs.filterMap (fun nr =>
        let s := ruleScore nr.2 (classifyOpenPorts d) (classifyServices d)
          (classifyText d)
        if s > 0 then some (nr.1, s) else none) by
    simpa using h rules []
  intro rs
  induction rs with
  | nil => intro acc; simp
  | cons nr rest ih =>
    intro acc
    simp only [List.foldl_cons, List.filterMap_cons]
    by_cases hs : ruleScore nr.2 (classifyOpenPorts d) (classifyServices d)
        (classifyText d) > 0
    · simp only [hs, if_pos, ih]
      simp
    · simp only [hs, if_neg, ih]
      simp [hs]

/-- C4: a rule's score is 10 per rule port open on the device, 20 per rule
keyword occurring in the lowered hostname/vendor/OS text, 15 per rule service
matching an open port's service name; and when some rule scores above zero,
`classify_device` returns an entry of the positive-score list (one per rule,
in rule definition order) with maximal score, the first such entry on ties. -/
theorem classify_device_scoring (rules : List (String × Rule)) (d : DeviceData)
    (h : ∃ nr ∈ rules, 0 < ruleScore nr.2 (classifyOpenPorts d)
      (classifyServices d) (classifyText d)) :
    (∀ r : Rule, ruleScore r (classifyOpenPorts d) (classifyServices d)
        (classifyText d) =
      10 * ((classifyOpenPorts d) ∩ r.ports.toFinset).card +
      20 * r.keywords.countP (fun kw => strIn (strLower kw) (classifyText d)) +
      15 * ((classifyServices d) ∩
        (r.services.map (fun s => strLower s)).toFinset).card) ∧
    (∃ p ∈ classifyScores rules d, classify_device rules d = p.1 ∧
      ∀ q ∈ classifyScores rules d, q.2 ≤ p.2) ∧
    (∀ pre x post, classifyScores rules d = pre ++ x :: post →
      (∀ y ∈ pre, y.2 < x.2) → (∀ y ∈ post, y.2 ≤ x.2) →
      classify_device rules d = x.1) := by
  have hne : classifyScores rules d ≠ [] := by
    obtain ⟨nr, hmem, hpos⟩ := h
    rw [classifyScores_eq_filterMap]
    intro hnil
    have : (nr.1, ruleScore nr.2 (classifyOpenPorts d) (classifyServices d)
        (classifyText d)) ∈ rules.filterMap (fun nr =>
          let s := ruleScore nr.2 (classifyOpenPorts d) (classifyServices d)
            (classifyText d)
          if s > 0 then some (nr.1, s) else none) := by
      refine List.mem_filterMap.mpr ⟨nr, hmem, ?_⟩
      simp [hpos]
    rw [hnil] at this
    cases this
  obtain ⟨p, hp⟩ : ∃ p, pyMaxBy (fun q => q.2) (classifyScores rules d) = some p := by
    cases hsc : classifyScores rules d with
    | nil => exact absurd hsc hne
    | cons x xs => exact ⟨_, rfl⟩
  obtain ⟨hmem, hle⟩ := pyMaxBy_spec (fun q => q.2) (classifyScores rules d) p hp
  refine ⟨fun r => ruleScore_formula r _ _ _, ⟨p, hmem, ?_, hle⟩, ?_⟩
  · unfold classify_device
    rw [hp]
  · intro pre x post hdec hpre hpost
    have hx : pyMaxBy (fun q => q.2) (classifyScores rules d) = some x := by
      rw [hdec]
      exact pyMaxBy_first (fun q => q.2) pre x post hpre hpost
    rw [hp] at hx
    unfold classify_device
    rw [hp, (Option.some.injEq _ _).mp hx]

/-- Witness for C4 at a two-rule configuration and a device with port 80
open running http: the positive-score hypothesis holds and the theorem
applies. -/
theorem classify_device_scoring_witness :
    (∃ nr ∈ exRules, 0 < ruleScore nr.2 (classifyOpenPorts exDevice)
      (classifyServices exDevice) (classifyText exDevice)) ∧
    ((∀ r : Rule, ruleScore r (classifyOpenPorts exDevice)
        (classifyServices exDevice) (classifyText exDevice) =
      10 * ((classifyOpenPorts exDevice) ∩ r.ports.toFinset).card +
      20 * r.keywords.countP
        (fun kw => strIn (strLower kw) (classifyText exDevice)) +
      15 * ((classifyServices exDevice) ∩
        (r.services.map (fun s => strLower s)).toFinset).card) ∧
    (∃ p ∈ classifyScores exRules exDevice,
      classify_device exRules exDevice = p.1 ∧
      ∀ q ∈ classifyScores exRules exDevice, q.2 ≤ p.2) ∧
    (∀ pre x post, classifyScores exRules exDevice = pre ++ x :: post →
      (∀ y ∈ pre, y.2 < x.2) → (∀ y ∈ post, y.2 ≤ x.2) →
      classify_device exRules exDevice = x.1)) :=
  ⟨by decide, classify_device_scoring exRules exDevice (by decide)⟩

/-! ## C5: extractDevices postcondition -/

theorem extract_devices_eq_filter_map (hosts : List HostData) :
    extract_devices hosts =
      (hosts.filter (fun h => h.status = "up")).map deviceOfHost := by
  unfold extract_devices
  suffices hgo : ∀ (hs : List HostData) (acc : List DeviceData),
      hs.foldl (fun acc h =>
        if h.status = "up" then acc ++ [deviceOfHost h] else acc) acc =
      acc ++ (hs.filter (fun h => h.status = "up")).map deviceOfHost by
    simpa using hgo hosts []
  intro hs
  induction hs with
  | nil => intro acc; simp
  | cons h rest ih =>
    intro acc
    simp only [List.foldl_cons, List.filter_cons]
    by_cases hup : h.status = "up"
    · simp [hup, ih]
    · simp [hup, ih]

/-- C5: `extract_devices` yields exactly one device per `up` host (in order);
the device is keyed by the host's IP whether or not a MAC is present; a
truthy MAC yields the OUI — the first three octets, colons stripped,
uppercased — while no MAC yields no `oui` key; and the device metadata
carries the host's full port list together with an open-port count equal to
the number of ports whose state is `open` (both read through the
defaulted accessors every consumer uses). -/
theorem extract_devices_post (hosts : List HostData) :
    extract_devices hosts =
      (hosts.filter (fun h => h.status = "up")).map deviceOfHost ∧
    (∀ h : HostData, (deviceOfHost h).ip_address = some h.ip_address) ∧
    (∀ h : HostData, ∀ s : String, h.mac_address = some s → s ≠ "" →
      (deviceOfHost h).oui = some (some (ouiOfMac s)) ∧
      ∀ a b c d e f : Char, ∀ rest : List Char,
        s.data = a :: b :: ':' :: c :: d :: ':' :: e :: f :: rest →
        a ≠ ':' → b ≠ ':' → c ≠ ':' → d ≠ ':' → e ≠ ':' → f ≠ ':' →
        ouiOfMac s = String.mk (([a, b] ++ [c, d] ++ [e, f]).map Char.toUpper)) ∧
    (∀ h : HostData, h.mac_address = none → (deviceOfHost h).oui = none) ∧
    (∀ h : HostData, metaPortsD (deviceOfHost h) = h.ports ∧
      metaOpenCountD (deviceOfHost h) =
        (h.ports.filter (fun p => p.state = some "open")).length) := by
  refine ⟨extract_devices_eq_filter_map hosts, ?_, ?_, ?_, ?_⟩
  · intro h; rfl
  · intro h s hmac hs
    constructor
    · simp [deviceOfHost, hmac, hs]
    · intro a b c d e f rest hdata ha hb hc hd he hf
      unfold ouiOfMac
      rw [hdata]
      simp [List.take, List.filter, ha, hb, hc, hd, he, hf]
  · intro h hmac
    simp [deviceOfHost, hmac]
  · intro h
    constructor
    · unfold metaPortsD metaPortsOf deviceOfHost metaOfHost pyGet
      by_cases hp : h.ports = []
      · simp [hp]
      · simp [hp]
    · unfold metaOpenCountD deviceOfHost metaOfHost pyGet openPortsCount
      by_cases hp : h.ports = []
      · simp [hp]
      · simp [hp]

/-- Witness for C5: a three-host payload (an up host with a MAC, a down
host, an up host with two ports one of which is open), with every hypothesis
of the theorem instantiated and discharged at it. -/
theorem extract_devices_post_witness :
    extract_devices [exHostMac, exHostDown, exHostPorts] =
      [deviceOfHost exHostMac, deviceOfHost exHostPorts] ∧
    (deviceOfHost exHostDown).ip_address = some (some "192.168.1.5") ∧
    (deviceOfHost exHostMac).oui = some (some (ouiOfMac "aa:bb:cc:dd:ee:ff")) ∧
    ouiOfMac "aa:bb:cc:dd:ee:ff" = "AABBCC" ∧
    (deviceOfHost exHostPorts).oui = none ∧
    metaPortsD (deviceOfHost exHostPorts) = [exPortOpen, exPortClosed] ∧
    metaOpenCountD (deviceOfHost exHostPorts) = 1 := by
  have hth := extract_devices_post [exHostMac, exHostDown, exHostPorts]
  obtain ⟨h1, h2, h3, h4, h5⟩ := hth
  have hmac := h3 exHostMac "aa:bb:cc:dd:ee:ff" (by decide) (by decide)
  refine ⟨h1.trans (by decide), h2 exHostDown, hmac.1, ?_, h4 exHostPorts (by decide), ?_, ?_⟩
  · have hoct := hmac.2 'a' 'a' 'b' 'b' 'c' 'c' [':', 'd', 'd', ':', 'e', 'e', ':', 'f', 'f']
      (by decide) (by decide) (by decide) (by decide) (by decide) (by decide) (by decide)
    exact hoct.trans (by decide)
  · exact (h5 exHostPorts).1.trans (by decide)
  · exact (h5 exHostPorts).2.trans (by decide)

/-! ## C7: scan timeout result -/

/-- C7 counterexample: on a timeout with the default 600s limit, the
returned error text is the full message, not the literal string `"timeout"`
the claim requires. -/
theorem nmapScan_timeout_error_text :
    (nmapScan "192.168.1.0/24" "discovery" 600 "nmap -sn -T4" "s" "" 0 ""
      ProcOutcome.timedOut).error = some "Scan timeout after 600s" ∧
    (nmapScan "192.168.1.0/24" "discovery" 600 "nmap -sn -T4" "s" "" 0 ""
      ProcOutcome.timedOut).error ≠ some "timeout" := by
  exact ⟨rfl, by decide⟩

/-- C7 (amended): when the external process exceeds the wall-clock timeout
the invoker returns (rather than raises) a result with `success = false`,
`duration` equal to the configured timeout, and an error message of the form
"Scan timeout after {timeout}s". -/
theorem nmapScan_timeout_result (target scanType : String) (timeout : Nat)
    (cmd startTime endTime : String) (measured : Nat) (version : String) :
    (nmapScan target scanType timeout cmd startTime endTime measured version
      ProcOutcome.timedOut).success = false ∧
    (nmapScan target scanType timeout cmd startTime endTime measured version
      ProcOutcome.timedOut).error =
        some ("Scan timeout after " ++ toString timeout ++ "s") ∧
    (nmapScan target scanType timeout cmd startTime endTime measured version
      ProcOutcome.timedOut).duration = some timeout :=
  ⟨rfl, rfl, rfl⟩

/-! ## Lemmas about the device upsert -/

theorem updateDeviceRow_ip (t : Nat) (d : DeviceData) (r : DeviceRow) :
    (updateDeviceRow t d r).ip_address = r.ip_address := rfl

theorem obsOf_updateDeviceRow (t : Nat) (d : DeviceData) (r : DeviceRow) :
    obsOf (updateDeviceRow t d r) = storedOf d := rfl

theorem obsOf_insertDeviceRow (i t : Nat) (d : DeviceData) :
    obsOf (insertDeviceRow i t d) = storedOf d := rfl

theorem add_device_eq_update (t : Nat) (d : DeviceData) (rows : List DeviceRow)
    (h : pyGet d.ip_address ≠ none ∧
      rows.any (fun r => r.ip_address = pyGet d.ip_address)) :
    add_device t d rows = rows.map (fun r =>
      if r.ip_address = pyGet d.ip_address then updateDeviceRow t d r else r) := by
  simp only [add_device, add_device_full]
  rw [if_pos h]

theorem add_device_eq_insert (t : Nat) (d : DeviceData) (rows : List DeviceRow)
    (h : ¬ (pyGet d.ip_address ≠ none ∧
      rows.any (fun r => r.ip_address = pyGet d.ip_address))) :
    add_device t d rows = rows ++ [insertDeviceRow (rows.length + 1) t d] := by
  simp only [add_device, add_device_full]
  rw [if_neg h]

theorem rowsForIp_map_pres (ip : String) (u : DeviceRow → DeviceRow)
    (hpres : ∀ r, (u r).ip_address = r.ip_address) (rows : List DeviceRow) :
    rowsForIp ip (rows.map u) = (rowsForIp ip rows).map u := by
  induction rows with
  | nil => rfl
  | cons r rs ih =>
    simp only [List.map_cons]
    unfold rowsForIp
    simp only [List.filter_cons]
    by_cases hr : r.ip_address = some ip
    · have hur : (u r).ip_address = some ip := by rw [hpres r]; exact hr
      simp only [hr, hur, decide_True, if_true]
      rw [List.map_cons]
      exact congrArg (u r :: ·) ih
    · have hur : ¬ (u r).ip_address = some ip := by rw [hpres r]; exact hr
      simp only [hr, hur, decide_False, Bool.false_eq_true, if_false]
      exact ih

theorem rowsForIp_append_single (ip : String) (rows : List DeviceRow)
    (x : DeviceRow) :
    rowsForIp ip (rows ++ [x]) =
      rowsForIp ip rows ++ (if x.ip_address = some ip then [x] else []) := by
  unfold rowsForIp
  rw [List.filter_append]
  by_cases hx : x.ip_address = some ip <;> simp [hx]

theorem rowsForIp_eq_nil_of_not_any (ip : String) (rows : List DeviceRow)
    (h : ¬ rows.any (fun r => r.ip_address = some ip)) :
    rowsForIp ip rows = [] := by
  unfold rowsForIp
  rw [List.filter_eq_nil_iff]
  intro r hr
  intro habs
  exact h (List.any_eq_true.mpr ⟨r, hr, habs⟩)

theorem rowsForIp_singleton_of_any (ip : String) (rows : List DeviceRow)
    (hany : rows.any (fun r => r.ip_address = some ip))
    (huniq : UniqIp rows) :
    ∃ r, rowsForIp ip rows = [r] ∧ r.ip_address = some ip := by
  obtain ⟨r, hr, hrip⟩ := List.any_eq_true.mp hany
  have hmem : r ∈ rowsForIp ip rows := List.mem_filter.mpr ⟨hr, hrip⟩
  have hlen := huniq ip
  cases hl : rowsForIp ip rows with
  | nil => rw [hl] at hmem; cases hmem
  | cons y ys =>
    cases ys with
    | nil =>
      refine ⟨y, rfl, ?_⟩
      have : y ∈ rowsForIp ip rows := by rw [hl]; exact List.mem_cons_self y []
      exact of_decide_eq_true (List.mem_filter.mp this).2
    | cons z zs =>
      rw [hl] at hlen
      simp at hlen

/-- After an upsert for a given IP, the table holds exactly one row for that
IP, carrying the incoming observation's eleven stored fields and the fresh
timestamp; and the one-row-per-IP table invariant is preserved. -/
theorem add_device_single_row (t : Nat) (d : DeviceData) (rows : List DeviceRow)
    (ip : String) (hip : pyGet d.ip_address = some ip) (huniq : UniqIp rows) :
    (∃ r, rowsForIp ip (add_device t d rows) = [r] ∧
      obsOf r = storedOf d ∧ r.last_seen = t) ∧
    UniqIp (add_device t d rows) := by
  by_cases hex : rows.any (fun r => r.ip_address = pyGet d.ip_address)
  · have hupd := add_device_eq_update t d rows ⟨by rw [hip]; exact Option.some_ne_none ip, hex⟩
    have hpres : ∀ r, ((fun r => if r.ip_address = pyGet d.ip_address
        then updateDeviceRow t d r else r) r).ip_address = r.ip_address := by
      intro r
      by_cases hr : r.ip_address = pyGet d.ip_address
      · simp [hr, updateDeviceRow_ip]
      · simp [hr]
    constructor
    · obtain ⟨r, hone, hrip⟩ := rowsForIp_singleton_of_any ip rows (by rw [hip] at hex; exact hex) huniq
      refine ⟨updateDeviceRow t d r, ?_, obsOf_updateDeviceRow t d r, rfl⟩
      rw [hupd, rowsForIp_map_pres ip _ hpres rows, hone]
      simp only [List.map_cons, List.map_nil]
      rw [if_pos (by rw [hip]; exact hrip)]
    · intro ip2
      rw [hupd, rowsForIp_map_pres ip2 _ hpres rows, List.length_map]
      exact huniq ip2
  · have hins := add_device_eq_insert t d rows (fun hc => hex hc.2)
    have hnew : (insertDeviceRow (rows.length + 1) t d).ip_address = some ip := by
      simp [insertDeviceRow, hip]
    have hnil : rowsForIp ip rows = [] :=
      rowsForIp_eq_nil_of_not_any ip rows (by rw [hip] at hex; exact hex)
    constructor
    · refine ⟨insertDeviceRow (rows.length + 1) t d, ?_, obsOf_insertDeviceRow _ t d, rfl⟩
      rw [hins, rowsForIp_append_single, hnil, if_pos hnew]
      rfl
    · intro ip2
      rw [hins, rowsForIp_append_single]
      by_cases h2 : ip2 = ip
      · subst h2
        rw [hnil, if_pos hnew]
        simp
      · rw [if_neg (by rw [hnew]; simp [h2, Ne.symm h2])]
        simpa using huniq ip2

/-! ## C1: device upsert merge precedence (corrected) -/

/-- C1 counterexample: observation A for 10.0.0.1 carries status "down";
observation B for the same IP has no status key (a null observation, which
the claim says must overwrite).  After upserting A then B the single row's
status is "up" — the `.get('status', 'up')` default — not B's null value, so
not every listed field equals B's value. -/
theorem add_device_status_default_cex :
    ((add_device 2 exObsB (add_device 1 exObsA [])).map (fun r => r.status) =
      [some "up"]) ∧
    pyGet exObsB.status = none ∧
    (some "up" : Option String) ≠ none :=
  ⟨by decide, rfl, by decide⟩

/-- C1 (amended): upserting observation A then B for the same IP leaves a
single row for that IP whose eleven observation columns equal the values
`add_device` binds from B — the nine address/classification fields are B's
values verbatim, nulls overwriting non-nulls with no field-level merge, while
`status` falls back to `'up'` and `metadata` to `{}` when B lacks them — and
whose `last_seen` is the second upsert's timestamp. -/
theorem add_device_last_write_wins (t1 t2 : Nat) (A B : DeviceData)
    (rows : List DeviceRow) (ip : String)
    (hA : pyGet A.ip_address = some ip) (hB : pyGet B.ip_address = some ip)
    (huniq : UniqIp rows) :
    ∃ r, rowsForIp ip (add_device t2 B (add_device t1 A rows)) = [r] ∧
      r.mac_address = pyGet B.mac_address ∧
      r.hostname = pyGet B.hostname ∧
      r.vendor = pyGet B.vendor ∧
      r.oui = pyGet B.oui ∧
      r.device_type = pyGet B.device_type ∧
      r.os_name = pyGet B.os_name ∧
      r.os_family = pyGet B.os_family ∧
      r.os_version = pyGet B.os_version ∧
      r.os_accuracy = pyGet B.os_accuracy ∧
      r.status = statusVal B ∧
      r.metadata = metaVal B ∧
      r.last_seen = t2 := by
  obtain ⟨_, huniq1⟩ := add_device_single_row t1 A rows ip hA huniq
  obtain ⟨⟨r, hone, hobs, hseen⟩, _⟩ :=
    add_device_single_row t2 B (add_device t1 A rows) ip hB huniq1
  exact ⟨r, hone, congrArg ObsFields.mac_address hobs,
    congrArg ObsFields.hostname hobs, congrArg ObsFields.vendor hobs,
    congrArg ObsFields.oui hobs, congrArg ObsFields.device_type hobs,
    congrArg ObsFields.os_name hobs, congrArg ObsFields.os_family hobs,
    congrArg ObsFields.os_version hobs, congrArg ObsFields.os_accuracy hobs,
    congrArg ObsFields.status hobs, congrArg ObsFields.metadata hobs, hseen⟩

/-- Witness for C1 (amended) at two concrete observations for 10.0.0.1:
A with status/hostname set, B with neither (so B's nulls land in the row,
while status falls back to 'up'). -/
theorem add_device_last_write_wins_witness :
    ∃ r, rowsForIp "10.0.0.1" (add_device 2 exObsB (add_device 1 exObsA [])) = [r] ∧
      r.mac_address = pyGet exObsB.mac_address ∧
      r.hostname = pyGet exObsB.hostname ∧
      r.vendor = pyGet exObsB.vendor ∧
      r.oui = pyGet exObsB.oui ∧
      r.device_type = pyGet exObsB.device_type ∧
      r.os_name = pyGet exObsB.os_name ∧
      r.os_family = pyGet exObsB.os_family ∧
      r.os_version = pyGet exObsB.os_version ∧
      r.os_accuracy = pyGet exObsB.os_accuracy ∧
      r.status = statusVal exObsB ∧
      r.metadata = metaVal exObsB ∧
      r.last_seen = 2 :=
  add_device_last_write_wins 1 2 exObsA exObsB [] "10.0.0.1" rfl rfl
    (by intro ip; simp [rowsForIp])

/-! ## C9: idempotent upsert, monotone last_seen -/

/-- C9: upserting the same `(ip_address)` record twice leaves exactly one
row for that IP whose eleven observation columns are unchanged by the second
upsert; each upsert stamps `last_seen` with the current timestamp, so over
non-decreasing clock readings `last_seen` advances monotonically. -/
theorem add_device_idempotent (t1 t2 : Nat) (d : DeviceData)
    (rows : List DeviceRow) (ip : String)
    (hip : pyGet d.ip_address = some ip) (huniq : UniqIp rows) (ht : t1 ≤ t2) :
    ∃ r1 r2, rowsForIp ip (add_device t1 d rows) = [r1] ∧
      rowsForIp ip (add_device t2 d (add_device t1 d rows)) = [r2] ∧
      obsOf r2 = obsOf r1 ∧ r1.last_seen = t1 ∧ r2.last_seen = t2 ∧
      r1.last_seen ≤ r2.last_seen := by
  obtain ⟨⟨r1, h1, ho1, hs1⟩, hu1⟩ := add_device_single_row t1 d rows ip hip huniq
  obtain ⟨⟨r2, h2, ho2, hs2⟩, _⟩ :=
    add_device_single_row t2 d (add_device t1 d rows) ip hip hu1
  exact ⟨r1, r2, h1, h2, ho2.trans ho1.symm, hs1, hs2, by rw [hs1, hs2]; exact ht⟩

/-- Witness for C9 at a concrete observation and timestamps 1 ≤ 2. -/
theorem add_device_idempotent_witness :
    ∃ r1 r2, rowsForIp "10.0.0.1" (add_device 1 exObsA []) = [r1] ∧
      rowsForIp "10.0.0.1" (add_device 2 exObsA (add_device 1 exObsA [])) = [r2] ∧
      obsOf r2 = obsOf r1 ∧ r1.last_seen = 1 ∧ r2.last_seen = 2 ∧
      r1.last_seen ≤ r2.last_seen :=
  add_device_idempotent 1 2 exObsA [] "10.0.0.1" rfl
    (by intro ip; simp [rowsForIp]) (by decide)

/-! ## C10: update-path frame condition -/

/-- C10: when the incoming observation's IP already exists, `add_device`
rewrites exactly the rows holding that IP — every other row is returned
unchanged — and the rewritten row keeps its `id`, `ip_address`, `first_seen`
(and `is_active`), changing only the eleven observation columns (set to the
incoming values) and `last_seen`. -/
theorem add_device_update_frame (t : Nat) (d : DeviceData)
    (rows : List DeviceRow) (ip : String)
    (hip : pyGet d.ip_address = some ip)
    (hex : rows.any (fun r => r.ip_address = some ip)) :
    add_device t d rows = rows.map (fun r =>
      if r.ip_address = some ip then updateDeviceRow t d r else r) ∧
    (∀ r : DeviceRow, r.ip_address ≠ some ip →
      (if r.ip_address = some ip then updateDeviceRow t d r else r) = r) ∧
    ∀ r : DeviceRow,
      (updateDeviceRow t d r).id = r.id ∧
      (updateDeviceRow t d r).ip_address = r.ip_address ∧
      (updateDeviceRow t d r).first_seen = r.first_seen ∧
      (updateDeviceRow t d r).is_active = r.is_active ∧
      obsOf (updateDeviceRow t d r) = storedOf d ∧
      (updateDeviceRow t d r).last_seen = t := by
  refine ⟨?_, ?_, ?_⟩
  · have h := add_device_eq_update t d rows
      ⟨by rw [hip]; exact Option.some_ne_none ip, by rw [hip]; exact hex⟩
    rw [hip] at h
    exact h
  · intro r hr
    rw [if_neg hr]
  · intro r
    exact ⟨rfl, rfl, rfl, rfl, rfl, rfl⟩

/-- Witness for C10 on a one-row table holding 10.0.0.1. -/
theorem add_device_update_frame_witness :
    add_device 2 exObsB (add_device 1 exObsA []) =
      (add_device 1 exObsA []).map (fun r =>
        if r.ip_address = some "10.0.0.1" then updateDeviceRow 2 exObsB r else r) ∧
    (∀ r : DeviceRow, r.ip_address ≠ some "10.0.0.1" →
      (if r.ip_address = some "10.0.0.1" then updateDeviceRow 2 exObsB r else r) = r) ∧
    ∀ r : DeviceRow,
      (updateDeviceRow 2 exObsB r).id = r.id ∧
      (updateDeviceRow 2 exObsB r).ip_address = r.ip_address ∧
      (updateDeviceRow 2 exObsB r).first_seen = r.first_seen ∧
      (updateDeviceRow 2 exObsB r).is_active = r.is_active ∧
      obsOf (updateDeviceRow 2 exObsB r) = storedOf exObsB ∧
      (updateDeviceRow 2 exObsB r).last_seen = 2 :=
  add_device_update_frame 2 exObsB (add_device 1 exObsA []) "10.0.0.1" rfl
    (by decide)

/-! ## C8: parse failure handling (corrected) -/

theorem scan_worker_success (res : ScanDict) :
    (scan_worker res).success = res.success := by
  unfold scan_worker
  split <;> rfl

/-- C8 counterexample: a successful invocation (exit code 0) whose
structured output is malformed.  The normalizer returns an explicit error
object and no devices, but the pipeline still marks the task completed —
`execute_task` looks only at the invoker's success flag — contradicting the
claim that the task is treated as failed with the parse message. -/
theorem parse_failure_task_completed_cex :
    (scan_worker (nmapScan "192.168.1.0/24" "quick" 600 "cmd" "s" "e" 3 "v"
      (ProcOutcome.finished 0 "out" ""
        (some (XmlStr.malformedStr "mismatched tag"))))).parsed_data =
      some (ParseResult.err "XML parse error: mismatched tag") ∧
    (scan_worker (nmapScan "192.168.1.0/24" "quick" 600 "cmd" "s" "e" 3 "v"
      (ProcOutcome.finished 0 "out" ""
        (some (XmlStr.malformedStr "mismatched tag"))))).devices = some [] ∧
    executeTaskFinalStatus (scan_worker (nmapScan "192.168.1.0/24" "quick" 600
      "cmd" "s" "e" 3 "v" (ProcOutcome.finished 0 "out" ""
        (some (XmlStr.malformedStr "mismatched tag"))))) = TStatus.completed ∧
    TStatus.completed ≠ TStatus.failed := by
  refine ⟨rfl, rfl, rfl, by decide⟩

/-- C8 (amended): an empty or malformed structured payload makes the
normalizer return an explicit error object carrying the failure message, and
device extraction from such a result yields no devices at all — never a
partially populated host/device list.  The pipeline, however, derives the
task's final status solely from the invoker's success flag, so a successful
invocation with an unparseable payload is marked completed, not failed. -/
theorem parse_failure_explicit_error (x : XmlStr)
    (hx : x = XmlStr.emptyStr ∨ ∃ msg, x = XmlStr.malformedStr msg) :
    (∃ emsg, parse_xml x = ParseResult.err emsg ∧
      hostsOfResult (parse_xml x) = [] ∧
      extractFromResult (parse_xml x) = []) ∧
    ∀ res : ScanDict, res.success = true →
      executeTaskFinalStatus (scan_worker res) = TStatus.completed := by
  constructor
  · rcases hx with h | ⟨msg, h⟩ <;> subst h
    · exact ⟨"Empty XML output", rfl, rfl, rfl⟩
    · exact ⟨"XML parse error: " ++ msg, rfl, rfl, rfl⟩
  · intro res hs
    unfold executeTaskFinalStatus
    rw [scan_worker_success, hs]
    rfl

/-- Witness for C8 (amended) at a malformed payload and a successful
invocation carrying it. -/
theorem parse_failure_explicit_error_witness :
    ((∃ emsg, parse_xml (XmlStr.malformedStr "mismatched tag") =
        ParseResult.err emsg ∧
      hostsOfResult (parse_xml (XmlStr.malformedStr "mismatched tag")) = [] ∧
      extractFromResult (parse_xml (XmlStr.malformedStr "mismatched tag")) = []) ∧
    ∀ res : ScanDict, res.success = true →
      executeTaskFinalStatus (scan_worker res) = TStatus.completed) ∧
    ((∃ emsg, parse_xml XmlStr.emptyStr = ParseResult.err emsg ∧
      hostsOfResult (parse_xml XmlStr.emptyStr) = [] ∧
      extractFromResult (parse_xml XmlStr.emptyStr) = []) ∧
    ∀ res : ScanDict, res.success = true →
      executeTaskFinalStatus (scan_worker res) = TStatus.completed) :=
  ⟨parse_failure_explicit_error (XmlStr.malformedStr "mismatched tag")
      (Or.inr ⟨"mismatched tag", rfl⟩),
   parse_failure_explicit_error XmlStr.emptyStr (Or.inl rfl)⟩

/-! ## C3: lemmas about the port upsert and the reconciliation loop -/

theorem add_port_mem_pres (t : Nat) (p : PortInsert) (rows : List PortRow)
    (pr : PortRow) (hpr : pr ∈ rows) (hnm : portKeyMatch p pr = false) :
    pr ∈ add_port t p rows := by
  unfold add_port
  split
  · have himg : (fun r => if portKeyMatch p r then updatePortRow t p r else r) pr = pr := by
      show (if portKeyMatch p pr = true then updatePortRow t p pr else pr) = pr
      rw [hnm]
      simp
    exact himg ▸ List.mem_map_of_mem _ hpr
  · exact List.mem_append_left _ hpr

theorem add_port_insert_eq (t : Nat) (p : PortInsert) (rows : List PortRow)
    (h : ∀ r ∈ rows, portKeyMatch p r = false) :
    add_port t p rows = rows ++ [insertPortRow t p] := by
  unfold add_port
  rw [if_neg]
  intro hany
  obtain ⟨r, hr, hm⟩ := List.any_eq_true.mp hany
  rw [h r hr] at hm
  cases hm

theorem add_port_devid (t : Nat) (p : PortInsert) (rows : List PortRow)
    (pr : PortRow) (hpr : pr ∈ add_port t p rows) :
    pr ∈ rows ∨ pr.device_id = p.device_id := by
  unfold add_port at hpr
  split at hpr
  · obtain ⟨r, hr, heq⟩ := List.mem_map.mp hpr
    by_cases hm : portKeyMatch p r = true
    · right
      rw [if_pos hm] at heq
      have hk := of_decide_eq_true (p := r.device_id = p.device_id ∧
        r.port_number = p.port_number ∧ r.protocol = p.protocol) hm
      rw [← heq]
      exact hk.1
    · left
      rw [if_neg hm] at heq
      rw [← heq]
      exact hr
  · rcases List.mem_append.mp hpr with h | h
    · left; exact h
    · right
      rw [List.mem_singleton.mp h]
      rfl

theorem addDevicePorts_mem_pres (t devId : Nat) (ps : List PortData) :
    ∀ (rows : List PortRow) (pr : PortRow), pr ∈ rows →
    (∀ p ∈ ps, ∀ n, p.port = some n →
      portKeyMatch (portInsertOf devId n p) pr = false) →
    pr ∈ addDevicePorts t devId ps rows := by
  induction ps with
  | nil => intro rows pr hpr _; exact hpr
  | cons p rest ih =>
    intro rows pr hpr h
    show pr ∈ addDevicePorts t devId rest _
    cases hp : p.port with
    | none =>
      simp only [hp]
      exact ih rows pr hpr
        (fun q hq n hqn => h q (List.mem_cons_of_mem p hq) n hqn)
    | some n =>
      simp only [hp]
      exact ih _ pr
        (add_port_mem_pres t _ rows pr hpr (h p (List.mem_cons_self p rest) n hp))
        (fun q hq m hqm => h q (List.mem_cons_of_mem p hq) m hqm)

theorem addDevicePorts_devid (t devId : Nat) (ps : List PortData) :
    ∀ (rows : List PortRow) (pr : PortRow),
    pr ∈ addDevicePorts t devId ps rows → pr ∈ rows ∨ pr.device_id = devId := by
  induction ps with
  | nil => intro rows pr hpr; left; exact hpr
  | cons p rest ih =>
    intro rows pr hpr
    have hpr2 : pr ∈ addDevicePorts t devId rest
        (match p.port with
         | some n => add_port t (portInsertOf devId n p) rows
         | none => rows) := hpr
    cases hp : p.port with
    | none =>
      rw [hp] at hpr2
      exact ih rows pr hpr2
    | some n =>
      rw [hp] at hpr2
      rcases ih _ pr hpr2 with h | h
      · rcases add_port_devid t _ rows pr h with h2 | h2
        · left; exact h2
        · right; exact h2
      · right; exact h

theorem portKeyMatch_insertPortRow_false (t devId n m : Nat) (p q : PortData)
    (hne : ¬ ((m, q.protocol) = ((n, p.protocol) : Nat × String))) :
    portKeyMatch (portInsertOf devId m q) (insertPortRow t (portInsertOf devId n p)) = false := by
  unfold portKeyMatch
  apply decide_eq_false
  intro hk
  apply hne
  have h1 : n = m := hk.2.1
  have h2 : p.protocol = q.protocol := hk.2.2
  rw [h1, h2]

theorem addDevicePorts_new_mem (t devId : Nat) (ps : List PortData) :
    ∀ (rows : List PortRow),
    (∀ pr ∈ rows, ∀ q ∈ ps, ∀ n, q.port = some n →
      portKeyMatch (portInsertOf devId n q) pr = false) →
    (ps.filterMap portKeyOf).Nodup →
    ∀ p ∈ ps, ∀ n, p.port = some n →
      insertPortRow t (portInsertOf devId n p) ∈ addDevicePorts t devId ps rows := by
  induction ps with
  | nil => intro rows _ _ p hp; cases hp
  | cons q rest ih =>
    intro rows hfresh hnd p hp n hpn
    rcases List.mem_cons.mp hp with hpq | hp2
    · subst hpq
      have hadd : add_port t (portInsertOf devId n p) rows =
          rows ++ [insertPortRow t (portInsertOf devId n p)] :=
        add_port_insert_eq t _ rows
          (fun r hr => hfresh r hr p (List.mem_cons_self p rest) n hpn)
      show insertPortRow t (portInsertOf devId n p) ∈ addDevicePorts t devId rest _
      simp only [hpn]
      rw [hadd]
      have hknotin : ((n, p.protocol) : Nat × String) ∉ rest.filterMap portKeyOf := by
        have hq : portKeyOf p = some (n, p.protocol) := by
          unfold portKeyOf
          rw [hpn]
          rfl
        simp only [List.filterMap_cons, hq] at hnd
        exact (List.nodup_cons.mp hnd).1
      apply addDevicePorts_mem_pres
      · exact List.mem_append_right _ (List.mem_singleton_self _)
      · intro q2 hq2 m hq2m
        apply portKeyMatch_insertPortRow_false
        intro habs
        apply hknotin
        rw [← habs]
        exact List.mem_filterMap.mpr ⟨q2, hq2, by unfold portKeyOf; rw [hq2m]; rfl⟩
    · cases hq : q.port with
      | none =>
        show insertPortRow t (portInsertOf devId n p) ∈ addDevicePorts t devId rest _
        simp only [hq]
        refine ih rows ?_ ?_ p hp2 n hpn
        · exact fun pr hpr q2 hq2 m hq2m =>
            hfresh pr hpr q2 (List.mem_cons_of_mem q hq2) m hq2m
        · have hqk : portKeyOf q = none := by
            unfold portKeyOf
            rw [hq]
            rfl
          simp only [List.filterMap_cons, hqk] at hnd
          exact hnd
      | some m =>
        show insertPortRow t (portInsertOf devId n p) ∈ addDevicePorts t devId rest _
        simp only [hq]
        have hqk : portKeyOf q = some (m, q.protocol) := by
          unfold portKeyOf
          rw [hq]
          rfl
        simp only [List.filterMap_cons, hqk] at hnd
        have hknotin := (List.nodup_cons.mp hnd).1
        have hadd : add_port t (portInsertOf devId m q) rows =
            rows ++ [insertPortRow t (portInsertOf devId m q)] :=
          add_port_insert_eq t _ rows
            (fun r hr => hfresh r hr q (List.mem_cons_self q rest) m hq)
        rw [hadd]
        refine ih (rows ++ [insertPortRow t (portInsertOf devId m q)]) ?_
          (List.nodup_cons.mp hnd).2 p hp2 n hpn
        intro pr hpr q2 hq2 k hq2k
        rcases List.mem_append.mp hpr with hold | hnew
        · exact hfresh pr hold q2 (List.mem_cons_of_mem q hq2) k hq2k
        · rw [List.mem_singleton.mp hnew]
          apply portKeyMatch_insertPortRow_false
          intro habs
          apply hknotin
          rw [← habs]
          exact List.mem_filterMap.mpr ⟨q2, hq2, by unfold portKeyOf; rw [hq2k]; rfl⟩

theorem add_device_full_insert (t : Nat) (d : DeviceData) (rows : List DeviceRow)
    (h : ∀ r ∈ rows, r.ip_address ≠ pyGet d.ip_address) :
    add_device_full t d rows =
      (rows.length + 1, rows ++ [insertDeviceRow (rows.length + 1) t d]) := by
  unfold add_device_full
  rw [if_neg]
  intro hc
  obtain ⟨r, hr, hm⟩ := List.any_eq_true.mp hc.2
  exact h r hr (of_decide_eq_true hm)

theorem processOneDevice_insert (t : Nat) (d : DeviceData) (st : DbState)
    (h : ∀ r ∈ st.devices, r.ip_address ≠ pyGet d.ip_address) :
    processOneDevice t d st =
      { devices := st.devices ++ [insertDeviceRow (st.devices.length + 1) t d],
        ports := addDevicePorts t (st.devices.length + 1) (workerPortsOf d) st.ports,
        events := st.events ++ [discoveredEvent (st.devices.length + 1) d] } := by
  unfold processOneDevice
  rw [add_device_full_insert t d st.devices h]
  rfl

theorem portKeyMatch_ne_devid (p : PortInsert) (r : PortRow)
    (h : r.device_id ≠ p.device_id) : portKeyMatch p r = false := by
  unfold portKeyMatch
  exact decide_eq_false (fun hk => h hk.1)

theorem countProcessed_beq_eq {A : Type} (k : Nat) :
    ∀ (devs : List A) (i0 : Nat),
    countProcessed (fun i => i == k) i0 devs =
      devs.length - (if i0 ≤ k ∧ k < i0 + devs.length then 1 else 0) := by
  intro devs
  induction devs with
  | nil =>
    intro i0
    simp only [countProcessed, List.length_nil]
    split <;> omega
  | cons a ds ih =>
    intro i0
    simp only [countProcessed, List.length_cons, ih (i0 + 1)]
    by_cases hik : i0 = k
    · subst hik
      simp only [beq_self_eq_true, if_true]
      split <;> split <;> omega
    · have hbe : (i0 == k) = false := by
        simp [hik]
      simp only [hbe, Bool.false_eq_true, if_false]
      split <;> split <;> omega

/-- The reconciliation loop from an arbitrary start index and state: existing
device and port rows are preserved, each processed (non-failing) device is
persisted with its ports, and one `device_discovered` event is recorded per
processed device.  The hypotheses are the invariants the loop maintains:
incoming IPs pairwise distinct, non-NULL and absent from the table; row ids
and port `device_id`s bounded by the table length. -/
theorem processDevicesFrom_spec (t : Nat) (fails : Nat → Bool) :
    ∀ (devs : List DeviceData) (i0 : Nat) (st : DbState),
    (∀ d ∈ devs, pyGet d.ip_address ≠ none) →
    ((devs.map (fun d => pyGet d.ip_address)).Nodup) →
    (∀ d ∈ devs, ∀ r ∈ st.devices, r.ip_address ≠ pyGet d.ip_address) →
    (∀ r ∈ st.devices, r.id ≤ st.devices.length) →
    (∀ pr ∈ st.ports, pr.device_id ≤ st.devices.length) →
    (∀ r ∈ st.devices, r ∈ (processDevicesFrom t fails i0 devs st).devices) ∧
    (∀ pr ∈ st.ports, pr ∈ (processDevicesFrom t fails i0 devs st).ports) ∧
    ((processDevicesFrom t fails i0 devs st).events.length =
      st.events.length + countProcessed fails i0 devs) ∧
    (∀ e ∈ (processDevicesFrom t fails i0 devs st).events,
      e ∈ st.events ∨ e.event_type = some "device_discovered") ∧
    (∀ j, ∀ hj : j < devs.length, fails (i0 + j) = false →
      devicePersisted (devs.get ⟨j, hj⟩) (processDevicesFrom t fails i0 devs st) ∧
      (((workerPortsOf (devs.get ⟨j, hj⟩)).filterMap portKeyOf).Nodup →
        ∃ devId, ∀ p ∈ workerPortsOf (devs.get ⟨j, hj⟩), ∀ n, p.port = some n →
          insertPortRow t (portInsertOf devId n p) ∈
            (processDevicesFrom t fails i0 devs st).ports)) := by
  intro devs
  induction devs with
  | nil =>
    intro i0 st _ _ _ _ _
    refine ⟨fun r hr => hr, fun pr hpr => hpr,
      by simp [processDevicesFrom, countProcessed],
      fun e he => Or.inl he, ?_⟩
    intro j hj
    exact absurd hj (Nat.not_lt_zero j)
  | cons d ds ih =>
    intro i0 st hnn hnd hdisj hidb hpb
    have hnn2 : ∀ q ∈ ds, pyGet q.ip_address ≠ none :=
      fun q hq => hnn q (List.mem_cons_of_mem d hq)
    have hnd2 : (ds.map (fun q => pyGet q.ip_address)).Nodup := by
      rw [List.map_cons] at hnd
      exact (List.nodup_cons.mp hnd).2
    have hheadip : ∀ q ∈ ds, pyGet d.ip_address ≠ pyGet q.ip_address := by
      intro q hq habs
      rw [List.map_cons] at hnd
      exact (List.nodup_cons.mp hnd).1 (habs ▸ List.mem_map_of_mem _ hq)
    by_cases hf : fails i0 = true
    · have heq : processDevicesFrom t fails i0 (d :: ds) st =
          processDevicesFrom t fails (i0 + 1) ds st := by
        show processDevicesFrom t fails (i0 + 1) ds
          (if fails i0 then st else processOneDevice t d st) = _
        rw [hf]
        simp
      obtain ⟨ihp1, ihp2, ihp3, ihp4, ihp5⟩ := ih (i0 + 1) st hnn2 hnd2
        (fun q hq => hdisj q (List.mem_cons_of_mem d hq)) hidb hpb
      rw [heq]
      refine ⟨ihp1, ihp2, ?_, ihp4, ?_⟩
      · rw [ihp3]
        simp [countProcessed, hf]
      · intro j hj hjf
        cases j with
        | zero =>
          rw [Nat.add_zero] at hjf
          rw [hf] at hjf
          cases hjf
        | succ j2 =>
          have harith : i0 + (j2 + 1) = (i0 + 1) + j2 := by omega
          rw [harith] at hjf
          exact ihp5 j2 (Nat.lt_of_succ_lt_succ hj) hjf
    · have hf2 : fails i0 = false := by
        cases hfc : fails i0
        · rfl
        · exact absurd hfc hf
      have hdhead : ∀ r ∈ st.devices, r.ip_address ≠ pyGet d.ip_address :=
        hdisj d (List.mem_cons_self d ds)
      have hone := processOneDevice_insert t d st hdhead
      have heq : processDevicesFrom t fails i0 (d :: ds) st =
          processDevicesFrom t fails (i0 + 1) ds (processOneDevice t d st) := by
        show processDevicesFrom t fails (i0 + 1) ds
          (if fails i0 then st else processOneDevice t d st) = _
        rw [hf2]
        simp
      set devId := st.devices.length + 1 with hdevid
      set stN : DbState :=
        { devices := st.devices ++ [insertDeviceRow devId t d],
          ports := addDevicePorts t devId (workerPortsOf d) st.ports,
          events := st.events ++ [discoveredEvent devId d] } with hstN
      rw [hone] at heq
      -- preconditions of the tail run
      have hdisjN : ∀ q ∈ ds, ∀ r ∈ stN.devices, r.ip_address ≠ pyGet q.ip_address := by
        intro q hq r hr
        rcases List.mem_append.mp hr with hold | hnew
        · exact hdisj q (List.mem_cons_of_mem d hq) r hold
        · rw [List.mem_singleton.mp hnew]
          show pyGet d.ip_address ≠ pyGet q.ip_address
          exact hheadip q hq
      have hlenN : stN.devices.length = st.devices.length + 1 := by
        simp [hstN]
      have hidbN : ∀ r ∈ stN.devices, r.id ≤ stN.devices.length := by
        intro r hr
        rw [hlenN]
        rcases List.mem_append.mp hr with hold | hnew
        · exact Nat.le_succ_of_le (hidb r hold)
        · rw [List.mem_singleton.mp hnew]
          show devId ≤ st.devices.length + 1
          rw [hdevid]
      have hpbN : ∀ pr ∈ stN.ports, pr.device_id ≤ stN.devices.length := by
        intro pr hpr
        rw [hlenN]
        rcases addDevicePorts_devid t devId (workerPortsOf d) st.ports pr hpr with hold | hnew
        · exact Nat.le_succ_of_le (hpb pr hold)
        · rw [hnew]
      obtain ⟨ihp1, ihp2, ihp3, ihp4, ihp5⟩ :=
        ih (i0 + 1) stN hnn2 hnd2 hdisjN hidbN hpbN
      rw [heq]
      have hportpres : ∀ pr ∈ st.ports, pr ∈ stN.ports := by
        intro pr hpr
        apply addDevicePorts_mem_pres
        · exact hpr
        · intro p _ n _
          apply portKeyMatch_ne_devid
          show pr.device_id ≠ devId
          have := hpb pr hpr
          omega
      refine ⟨?_, ?_, ?_, ?_, ?_⟩
      · intro r hr
        exact ihp1 r (List.mem_append_left _ hr)
      · intro pr hpr
        exact ihp2 pr (hportpres pr hpr)
      · rw [ihp3]
        show (st.events ++ [discoveredEvent devId d]).length + _ = _
        rw [List.length_append]
        simp [countProcessed, hf2]
        omega
      · intro e he
        rcases ihp4 e he with hold | hdisc
        · rcases List.mem_append.mp hold with h1 | h2
          · exact Or.inl h1
          · right
            rw [List.mem_singleton.mp h2]
            rfl
        · exact Or.inr hdisc
      · intro j hj hjf
        cases j with
        | zero =>
          constructor
          · refine ⟨insertDeviceRow devId t d,
              ihp1 _ (List.mem_append_right _ (List.mem_singleton_self _)), ?_, ?_⟩
            · rfl
            · exact obsOf_insertDeviceRow devId t d
          · intro hndk
            refine ⟨devId, ?_⟩
            intro p hp n hpn
            apply ihp2
            apply addDevicePorts_new_mem t devId (workerPortsOf d) st.ports ?_ hndk p hp n hpn
            intro pr hpr q _ m _
            apply portKeyMatch_ne_devid
            show pr.device_id ≠ devId
            have := hpb pr hpr
            omega
        | succ j2 =>
          have harith : i0 + (j2 + 1) = (i0 + 1) + j2 := by omega
          rw [harith] at hjf
          exact ihp5 j2 (Nat.lt_of_succ_lt_succ hj) hjf

/-- C3: for a batch of N extracted devices (pairwise-distinct non-NULL IPs,
per-device distinct port keys) reconciled into an empty store, if persisting
device k raises then every other device is still persisted — its row upserted
and each of its numeric ports present as a port row — and exactly N−1
`device_discovered` events exist, all of that type: one failure never aborts
the rest of the batch. -/
theorem process_scan_result_partial_failure (t : Nat) (devs : List DeviceData)
    (k : Nat) (hk : k < devs.length)
    (hnn : ∀ d ∈ devs, pyGet d.ip_address ≠ none)
    (hnd : (devs.map (fun d => pyGet d.ip_address)).Nodup)
    (hpk : ∀ d ∈ devs, ((workerPortsOf d).filterMap portKeyOf).Nodup) :
    (∀ j, ∀ hj : j < devs.length, j ≠ k →
      devicePersisted (devs.get ⟨j, hj⟩)
        (processDevices t (fun i => i == k) devs {})) ∧
    (∀ j, ∀ hj : j < devs.length, j ≠ k →
      ∃ devId, ∀ p ∈ workerPortsOf (devs.get ⟨j, hj⟩), ∀ n, p.port = some n →
        insertPortRow t (portInsertOf devId n p) ∈
          (processDevices t (fun i => i == k) devs {}).ports) ∧
    ((processDevices t (fun i => i == k) devs {}).events.length =
      devs.length - 1) ∧
    (∀ e ∈ (processDevices t (fun i => i == k) devs {}).events,
      e.event_type = some "device_discovered") := by
  obtain ⟨_, _, hev, hty, hper⟩ := processDevicesFrom_spec t (fun i => i == k)
    devs 0 {} hnn hnd (fun d _ r hr => absurd hr (List.not_mem_nil r))
    (fun r hr => absurd hr (List.not_mem_nil r))
    (fun pr hpr => absurd hpr (List.not_mem_nil pr))
  have hfjf : ∀ j, j ≠ k → ((0 + j == k) = false) := by
    intro j hjk
    simp [Nat.zero_add, hjk]
  refine ⟨?_, ?_, ?_, ?_⟩
  · intro j hj hjk
    exact (hper j hj (hfjf j hjk)).1
  · intro j hj hjk
    exact (hper j hj (hfjf j hjk)).2 (hpk _ (List.get_mem devs j hj))
  · unfold processDevices
    rw [hev, countProcessed_beq_eq k devs 0,
      if_pos ⟨Nat.zero_le k, by omega⟩]
    exact Nat.zero_add _
  · intro e he
    rcases hty e he with h0 | hd
    · exact absurd h0 (List.not_mem_nil e)
    · exact hd

/-- Witness for C3 on a concrete three-device batch where persisting the
first device fails: the remaining two are persisted, the ported device's two
port rows exist, and exactly two `device_discovered` events remain. -/
theorem process_scan_result_partial_failure_witness :
    (0 < exBatch.length) ∧
    (∀ d ∈ exBatch, pyGet d.ip_address ≠ none) ∧
    ((exBatch.map (fun d => pyGet d.ip_address)).Nodup) ∧
    (∀ d ∈ exBatch, ((workerPortsOf d).filterMap portKeyOf).Nodup) ∧
    ((processDevices 7 (fun i => i == 0) exBatch {}).events.length =
      exBatch.length - 1) ∧
    (∀ e ∈ (processDevices 7 (fun i => i == 0) exBatch {}).events,
      e.event_type = some "device_discovered") ∧
    devicePersisted (exBatch.get ⟨1, by decide⟩)
      (processDevices 7 (fun i => i == 0) exBatch {}) ∧
    (∃ devId, ∀ p ∈ workerPortsOf (exBatch.get ⟨1, by decide⟩), ∀ n,
      p.port = some n →
      insertPortRow 7 (portInsertOf devId n p) ∈
        (processDevices 7 (fun i => i == 0) exBatch {}).ports) := by
  have hth := process_scan_result_partial_failure 7 exBatch 0 (by decide)
    (by decide) (by decide) (by decide)
  exact ⟨by decide, by decide, by decide, by decide, hth.2.2.1, hth.2.2.2,
    hth.1 1 (by decide) (by decide), hth.2.1 1 (by decide) (by decide)⟩

/-! ## C2: task status lifecycle lemmas -/

theorem histOf_updateStatus (id j : Nat) (s : TStatus) (st : TaskStore) :
    histOf id (updateStatus j s st) =
      histOf id st ++ (if j = id then [s] else []) := by
  unfold histOf updateStatus
  simp only [List.filter_append, List.map_append]
  congr 1
  by_cases hj : j = id <;> simp [hj]

theorem histOf_createTask (id : Nat) (st : TaskStore) :
    histOf id (createTask st).2 =
      histOf id st ++
        (if st.rows.length + 1 = id then [TStatus.pending] else []) := by
  unfold histOf createTask
  simp only [List.filter_append, List.map_append]
  congr 1
  by_cases hj : st.rows.length + 1 = id <;> simp [hj]

theorem updateStatus_id_pres (j : Nat) (s : TStatus) (r : TaskRow) :
    ((fun r2 => if r2.id = j then { r2 with status := s } else r2) r).id = r.id := by
  by_cases h : r.id = j <;> simp [h]

theorem mem_rows_updateStatus_of_ne (j : Nat) (s : TStatus) (st : TaskStore)
    (r : TaskRow) (hr : r ∈ st.rows) (hne : r.id ≠ j) :
    r ∈ (updateStatus j s st).rows := by
  have himg : (fun r2 => if r2.id = j then { r2 with status := s } else r2) r = r := by
    show (if r.id = j then ({ r with status := s } : TaskRow) else r) = r
    rw [if_neg hne]
  exact himg ▸ List.mem_map_of_mem _ hr

theorem mem_rows_updateStatus_self (j : Nat) (s : TStatus) (st : TaskStore)
    (r : TaskRow) (hr : r ∈ st.rows) (hid : r.id = j) :
    ({ r with status := s } : TaskRow) ∈ (updateStatus j s st).rows := by
  have himg : (fun r2 => if r2.id = j then { r2 with status := s } else r2) r =
      { r with status := s } := by
    show (if r.id = j then ({ r with status := s } : TaskRow) else r) =
      { r with status := s }
    rw [if_pos hid]
  exact himg ▸ List.mem_map_of_mem _ hr

theorem TaskInv_updateStatus (j : Nat) (s : TStatus) (st : TaskStore)
    (hinv : TaskInv st) (r : TaskRow) (hr : r ∈ st.rows) (hid : r.id = j)
    (hallow : allowedB r.status s = true) :
    TaskInv (updateStatus j s st) := by
  obtain ⟨hb, hu, hhr, hhd⟩ := hinv
  have hrowseq : (updateStatus j s st).rows =
      st.rows.map (fun r2 => if r2.id = j then { r2 with status := s } else r2) := rfl
  have hids : ((updateStatus j s st).rows.map (fun r2 => r2.id)) =
      st.rows.map (fun r2 => r2.id) := by
    rw [hrowseq, List.map_map]
    exact List.map_congr_left (fun a _ => updateStatus_id_pres j s a)
  refine ⟨?_, ?_, ?_, ?_⟩
  · intro r2 hr2
    rw [hrowseq] at hr2
    obtain ⟨r3, hr3, heq⟩ := List.mem_map.mp hr2
    have hlen : (updateStatus j s st).rows.length = st.rows.length := by
      rw [hrowseq, List.length_map]
    rw [hlen, ← heq]
    have : ((fun r4 => if r4.id = j then { r4 with status := s } else r4) r3).id = r3.id :=
      updateStatus_id_pres j s r3
    rw [this]
    exact hb r3 hr3
  · rw [hids]
    exact hu
  · intro r2 hr2
    rw [hrowseq] at hr2
    obtain ⟨r3, hr3, heq⟩ := List.mem_map.mp hr2
    by_cases h3 : r3.id = j
    · have hr3r : r3 = r :=
        List.inj_on_of_nodup_map hu hr3 hr (by rw [h3, hid])
      subst hr3r
      rw [if_pos h3] at heq
      have hr2id : r2.id = r3.id := by rw [← heq]
      rw [hr2id, h3, histOf_updateStatus j j s st, if_pos rfl]
      obtain ⟨hlast, hhead, hchain⟩ :
          (histOf j st).getLast? = some r3.status ∧
          (histOf j st).head? = some TStatus.pending ∧
          List.Chain' (fun a b => allowedB a b = true) (histOf j st) := by
        have := hhr r3 hr3
        rw [h3] at this
        exact ⟨this.1, this.2.1, this.2.2⟩
      have hnenil : histOf j st ≠ [] := by
        intro hnil
        rw [hnil] at hlast
        cases hlast
      constructor
      · rw [List.getLast?_concat]
        rw [← heq]
      · constructor
        · cases hl : histOf j st with
          | nil => exact absurd hl hnenil
          | cons a l2 =>
            rw [hl] at hhead
            simp only [List.cons_append, List.head?_cons]
            simp only [List.head?_cons] at hhead
            exact hhead
        · refine List.chain'_append.mpr ⟨hchain, List.chain'_singleton s, ?_⟩
          intro x hx y hy
          rw [hlast] at hx
          have hxv : x = r3.status := by
            cases hx
            rfl
          have hyv : y = s := by
            simp only [List.head?_cons] at hy
            cases hy
            rfl
          rw [hxv, hyv]
          exact hallow
    · rw [if_neg h3] at heq
      have hr2r3 : r2 = r3 := heq.symm
      subst hr2r3
      rw [histOf_updateStatus r2.id j s st, if_neg (fun hj => h3 hj.symm),
        List.append_nil]
      exact hhr r2 hr3
  · intro id hne
    rw [histOf_updateStatus id j s st] at hne
    by_cases hj : j = id
    · refine ⟨{ r with status := s }, mem_rows_updateStatus_self j s st r hr hid, ?_⟩
      show r.id = id
      rw [hid, hj]
    · rw [if_neg hj, List.append_nil] at hne
      obtain ⟨r2, hr2, hr2id⟩ := hhd id hne
      have hr2ne : r2.id ≠ j := by
        rw [hr2id]
        exact fun h => hj h.symm
      exact ⟨r2, mem_rows_updateStatus_of_ne j s st r2 hr2 hr2ne, hr2id⟩

theorem TaskInv_createTask (st : TaskStore) (hinv : TaskInv st) :
    TaskInv (createTask st).2 ∧
    ({ id := st.rows.length + 1, status := TStatus.pending } : TaskRow) ∈
      (createTask st).2.rows := by
  obtain ⟨hb, hu, hhr, hhd⟩ := hinv
  have hrows : (createTask st).2.rows =
      st.rows ++ [{ id := st.rows.length + 1, status := TStatus.pending }] := rfl
  have hlen : (createTask st).2.rows.length = st.rows.length + 1 := by
    rw [hrows, List.length_append]
    rfl
  have hmemnew : ({ id := st.rows.length + 1, status := TStatus.pending } : TaskRow) ∈
      (createTask st).2.rows := by
    rw [hrows]
    exact List.mem_append_right _ (List.mem_singleton_self _)
  have hfreshhist : histOf (st.rows.length + 1) st = [] := by
    by_contra hne
    obtain ⟨r2, hr2, hr2id⟩ := hhd _ hne
    have := (hb r2 hr2).2
    omega
  refine ⟨⟨?_, ?_, ?_, ?_⟩, hmemnew⟩
  · intro r2 hr2
    rw [hrows] at hr2
    rw [hlen]
    rcases List.mem_append.mp hr2 with hold | hnew
    · have := hb r2 hold
      omega
    · rw [List.mem_singleton.mp hnew]
      show 1 ≤ st.rows.length + 1 ∧ st.rows.length + 1 ≤ st.rows.length + 1
      omega
  · rw [hrows, List.map_append]
    rw [List.nodup_append]
    refine ⟨hu, List.nodup_singleton _, ?_⟩
    intro x hx hx2
    obtain ⟨r2, hr2, hr2id⟩ := List.mem_map.mp hx
    have hb2 := (hb r2 hr2).2
    have hx2v : x = st.rows.length + 1 := by
      simpa using hx2
    omega
  · intro r2 hr2
    rw [hrows] at hr2
    rcases List.mem_append.mp hr2 with hold | hnew
    · have hne : st.rows.length + 1 ≠ r2.id := by
        have := (hb r2 hold).2
        omega
      rw [histOf_createTask r2.id st, if_neg hne, List.append_nil]
      exact hhr r2 hold
    · rw [List.mem_singleton.mp hnew]
      show (histOf (st.rows.length + 1) (createTask st).2).getLast? =
          some TStatus.pending ∧ goodHist (histOf (st.rows.length + 1) (createTask st).2)
      rw [histOf_createTask (st.rows.length + 1) st, if_pos rfl, hfreshhist,
        List.nil_append]
      exact ⟨rfl, rfl, List.chain'_singleton _⟩
  · intro id hne
    rw [histOf_createTask id st] at hne
    by_cases hj : st.rows.length + 1 = id
    · exact ⟨_, hmemnew, hj⟩
    · rw [if_neg hj, List.append_nil] at hne
      obtain ⟨r2, hr2, hr2id⟩ := hhd id hne
      refine ⟨r2, ?_, hr2id⟩
      rw [hrows]
      exact List.mem_append_left _ hr2

theorem pendingIds_spec (st : TaskStore)
    (hu : (st.rows.map (fun r => r.id)).Nodup) :
    (pendingIds st).Nodup ∧
    ∀ i ∈ pendingIds st, ∃ r ∈ st.rows, r.id = i ∧ r.status = TStatus.pending := by
  constructor
  · unfold pendingIds
    exact hu.sublist (List.Sublist.map _ (List.filter_sublist st.rows))
  · intro i hi
    unfold pendingIds at hi
    obtain ⟨r, hr, hrid⟩ := List.mem_map.mp hi
    have hmf := List.mem_filter.mp hr
    exact ⟨r, hmf.1, hrid, of_decide_eq_true hmf.2⟩

theorem TaskInv_runSweepIds (f : Nat → Bool) :
    ∀ (ids : List Nat) (st : TaskStore), TaskInv st → ids.Nodup →
    (∀ i ∈ ids, ∃ r ∈ st.rows, r.id = i ∧ r.status = TStatus.pending) →
    TaskInv (runSweepIds f ids st) := by
  intro ids
  induction ids with
  | nil => intro st hinv _ _; exact hinv
  | cons i rest ih =>
    intro st hinv hnd hpend
    obtain ⟨r, hr, hrid, hrst⟩ := hpend i (List.mem_cons_self i rest)
    have hinv1 : TaskInv (updateStatus i TStatus.running st) :=
      TaskInv_updateStatus i TStatus.running st hinv r hr hrid
        (by rw [hrst]; rfl)
    have hmem1 : ({ r with status := TStatus.running } : TaskRow) ∈
        (updateStatus i TStatus.running st).rows :=
      mem_rows_updateStatus_self i TStatus.running st r hr hrid
    have hinv2 : TaskInv (updateStatus i (termOf (f i))
        (updateStatus i TStatus.running st)) := by
      refine TaskInv_updateStatus i (termOf (f i)) _ hinv1
        { r with status := TStatus.running } hmem1 hrid ?_
      show allowedB TStatus.running (termOf (f i)) = true
      unfold termOf
      cases f i <;> rfl
    show TaskInv (runSweepIds f rest _)
    apply ih _ hinv2 (List.nodup_cons.mp hnd).2
    intro i2 hi2
    obtain ⟨r2, hr2, hr2id, hr2st⟩ := hpend i2 (List.mem_cons_of_mem i hi2)
    have hne : r2.id ≠ i := by
      rw [hr2id]
      intro heq2
      exact (List.nodup_cons.mp hnd).1 (heq2 ▸ hi2)
    refine ⟨r2, ?_, hr2id, hr2st⟩
    exact mem_rows_updateStatus_of_ne i (termOf (f i)) _ r2
      (mem_rows_updateStatus_of_ne i TStatus.running st r2 hr2 hne) hne

theorem TaskInv_runFlowSeq (st : TaskStore) (hinv : TaskInv st)
    (fs : FlowSpec) : TaskInv (runFlowSeq st fs) := by
  cases fs with
  | createOnly => exact (TaskInv_createTask st hinv).1
  | direct o =>
    obtain ⟨hinv1, hmemnew⟩ := TaskInv_createTask st hinv
    show TaskInv (updateStatus (st.rows.length + 1) (termOf o)
      (updateStatus (st.rows.length + 1) TStatus.running (createTask st).2))
    have hinv2 : TaskInv (updateStatus (st.rows.length + 1) TStatus.running
        (createTask st).2) :=
      TaskInv_updateStatus _ TStatus.running _ hinv1
        { id := st.rows.length + 1, status := TStatus.pending } hmemnew rfl rfl
    refine TaskInv_updateStatus _ (termOf o) _ hinv2
      { id := st.rows.length + 1, status := TStatus.running }
      (mem_rows_updateStatus_self _ TStatus.running _
        { id := st.rows.length + 1, status := TStatus.pending } hmemnew rfl)
      rfl ?_
    show allowedB TStatus.running (termOf o) = true
    unfold termOf
    cases o <;> rfl
  | sweep f =>
    obtain ⟨hnd, hpend⟩ := pendingIds_spec st hinv.2.1
    exact TaskInv_runSweepIds f (pendingIds st) st hinv hnd hpend

theorem TaskInv_runSeq (flows : List FlowSpec) : TaskInv (runSeq flows) := by
  unfold runSeq
  suffices h : ∀ (fl : List FlowSpec) (st : TaskStore), TaskInv st →
      TaskInv (fl.foldl runFlowSeq st) by
    refine h flows {} ⟨?_, ?_, ?_, ?_⟩
    · intro r hr; cases hr
    · exact List.nodup_nil
    · intro r hr; cases hr
    · intro id hne; exact absurd rfl hne
  intro fl
  induction fl with
  | nil => intro st hinv; exact hinv
  | cons fs rest ih =>
    intro st hinv
    exact ih _ (TaskInv_runFlowSeq st hinv fs)

theorem goodHist_no_completed_then_running (l : List TStatus)
    (h : List.Chain' (fun a b => allowedB a b = true) l) :
    hasCompletedThenRunning l = false := by
  induction l with
  | nil => rfl
  | cons a l2 ih =>
    cases l2 with
    | nil => rfl
    | cons b l3 =>
      have hab := List.chain'_cons.mp h
      have hrec := ih hab.2
      show (((a, b) :: ((b :: l3).zip l3)).any
        (fun p => decide (p.1 = TStatus.completed ∧ p.2 = TStatus.running))) = false
      rw [List.any_cons]
      have h1 : decide (a = TStatus.completed ∧ b = TStatus.running) = false := by
        apply decide_eq_false
        intro hc
        rw [hc.1, hc.2] at hab
        cases hab.1
      rw [h1]
      have h2 : ((b :: l3).zip l3).any
          (fun p => decide (p.1 = TStatus.completed ∧ p.2 = TStatus.running)) = false :=
        hrec
      rw [h2]
      rfl

/-! ## C2: task status transitions (corrected) -/

/-- C2 counterexample: an interleaving of the system's own drivers reaches
`completed → running`.  The backlog sweep reads task 1 while it is pending;
the direct execution path then runs the task to completion; the sweep, whose
`execute_task` writes `running` without re-checking the current status, then
re-runs the completed task.  Schedule `[0,1,0,0,1,1]` interleaves the two
drivers at store-operation granularity; task 1's status history is
`pending, running, completed, running, completed`. -/
theorem task_status_completed_then_running_cex :
    (runSched [0, 1, 0, 0, 1, 1]
      { store := {},
        flows := [FlowPC.dStart true, FlowPC.sStart (fun _ => true)] }).map
      (fun s => (histOf 1 s.store, hasCompletedThenRunning (histOf 1 s.store))) =
    some ([TStatus.pending, TStatus.running, TStatus.completed,
           TStatus.running, TStatus.completed], true) := by
  rfl

/-- C2 (amended): when the system's task drivers — one-time creation, the
direct create-and-execute path, and the backlog sweep — run sequentially
(no two drivers interleaved between their store operations), every task's
status history starts at `pending` and every transition follows
`pending → running → {completed, failed}`; in particular no task re-enters
`pending` once started and no transition leaves a terminal state (no
`completed → running`).  Interleaved drivers can violate this, because
`execute_task` sets `running` without checking the current status. -/
theorem task_status_monotone_sequential (flows : List FlowSpec) (id : Nat)
    (hne : histOf id (runSeq flows) ≠ []) :
    goodHist (histOf id (runSeq flows)) ∧
    hasCompletedThenRunning (histOf id (runSeq flows)) = false := by
  obtain ⟨_, _, hhr, hhd⟩ := TaskInv_runSeq flows
  obtain ⟨r, hr, hrid⟩ := hhd id hne
  have hgood := (hhr r hr).2
  rw [hrid] at hgood
  exact ⟨hgood, goodHist_no_completed_then_running _ hgood.2⟩

/-- Witness for C2 (amended) on a concrete sequential run: a one-time
creation, a direct completed execution, and a sweep that fails what it
picks up; task 1 (created pending, then run by the sweep). -/
theorem task_status_monotone_sequential_witness :
    (histOf 1 (runSeq [FlowSpec.createOnly, FlowSpec.direct true,
      FlowSpec.sweep (fun _ => false)]) ≠ []) ∧
    goodHist (histOf 1 (runSeq [FlowSpec.createOnly, FlowSpec.direct true,
      FlowSpec.sweep (fun _ => false)])) ∧
    hasCompletedThenRunning (histOf 1 (runSeq [FlowSpec.createOnly,
      FlowSpec.direct true, FlowSpec.sweep (fun _ => false)])) = false :=
  ⟨by decide, (task_status_monotone_sequential
      [FlowSpec.createOnly, FlowSpec.direct true,
       FlowSpec.sweep (fun _ => false)] 1 (by decide)).1,
   (task_status_monotone_sequential
      [FlowSpec.createOnly, FlowSpec.direct true,
       FlowSpec.sweep (fun _ => false)] 1 (by decide)).2⟩

end Pulse
